import Mathlib

/-!
# Verification of the taskcards real-time quiz relay server

A shallow embedding of `server.js` (the WebSocket relay): rooms, players,
connection state, the eight protocol handlers, the dispatcher with its
rate limiter, and the lifecycle events (disconnect, room expiry,
host-disconnect timeout).  JavaScript dynamic values are modelled by
`JSVal` (numbers as exact rationals plus NaN/±Infinity tags), JS `Map`s
by insertion-ordered association lists (`OMap`), and wall-clock time
(`Date.now()`) by an explicit `now : Int` parameter (milliseconds).
Randomly minted identifiers (`generateRoomId`, `generateSessionId`) are
passed in as an explicit `Fresh` record; the rejection-sampling loop of
`generateRoomId` is reflected as the side condition that the minted room
id is not already in the registry.  Attached channels are identified by
`ChannelId`; a channel that is attached is modelled as open
(`readyState === 1`), detachment is `none`.
-/

/-- A JavaScript number: NaN, ±Infinity, or a finite value (finite IEEE
doubles are exact rationals, and the comparisons the server performs on
them are exact). -/
inductive JSNum where
  | nan
  | inf
  | ninf
  | val (q : ℚ)
deriving DecidableEq, Repr

/-- An atomic JavaScript value (an element of an array field; the server
never inspects structure nested below one array level: `answerData`
elements are forwarded verbatim and `options` elements are only
typeof/length-checked). -/
inductive JSAtom where
  | undef
  | nullv
  | boolean (b : Bool)
  | num (n : JSNum)
  | str (s : String)
deriving DecidableEq, Repr

/-- A JavaScript value as it appears in a parsed JSON frame field. -/
inductive JSVal where
  | undef
  | nullv
  | boolean (b : Bool)
  | num (n : JSNum)
  | str (s : String)
  | arr (xs : List JSAtom)
deriving DecidableEq, Repr

/-- JS truthiness of a number: `0` and `NaN` are falsy. -/
def JSNum.truthy : JSNum → Bool
  | .nan => false
  | .inf => true
  | .ninf => true
  | .val q => decide (q ≠ 0)

/-- JS truthiness. -/
def JSVal.truthy : JSVal → Bool
  | .undef => false
  | .nullv => false
  | .boolean b => b
  | .num n => n.truthy
  | .str s => decide (s ≠ "")
  | .arr _ => true

/-- JS comparison `n >= 0` (false on NaN). -/
def JSNum.ge0 : JSNum → Bool
  | .nan => false
  | .inf => true
  | .ninf => false
  | .val q => decide (0 ≤ q)

/-- JS comparison `n > 0` (false on NaN). -/
def JSNum.gt0 : JSNum → Bool
  | .nan => false
  | .inf => true
  | .ninf => false
  | .val q => decide (0 < q)

/-- JS comparison `n <= 80` (false on NaN). -/
def JSNum.le80 : JSNum → Bool
  | .nan => false
  | .inf => false
  | .ninf => true
  | .val q => decide (q ≤ 80)

/-- Insertion-ordered association map, mirroring a JS `Map`: `set` on an
existing key replaces the value in place, a new key is appended at the
end, and iteration follows insertion order. -/
abbrev OMap (α β : Type) := List (α × β)

/-- `Map.get` (also used for property lookup on a plain object record). -/
def OMap.get {α β : Type} [DecidableEq α] : OMap α β → α → Option β
  | [], _ => none
  | (k', v) :: rest, k => if k' = k then some v else OMap.get rest k

/-- `Map.set`. -/
def OMap.set {α β : Type} [DecidableEq α] : OMap α β → α → β → OMap α β
  | [], k, v => [(k, v)]
  | (k', v') :: rest, k, v =>
      if k' = k then (k, v) :: rest else (k', v') :: OMap.set rest k v

/-- `Map.delete`. -/
def OMap.del {α β : Type} [DecidableEq α] : OMap α β → α → OMap α β
  | [], _ => []
  | (k', v') :: rest, k => if k' = k then rest else (k', v') :: OMap.del rest k

/-- Lookup through a possibly-`undefined` key (`map.get(undefined)` is
`undefined`). -/
def OMap.getOpt {β : Type} (m : OMap String β) (k : Option String) : Option β :=
  match k with
  | some s => m.get s
  | none => none

/-!
## `sanitizeName` (server.js lines 26–30)

`name.replace(/<[^>]*>/g, '').replace(/[\x00-\x1F\x7F]/g, '').trim().substring(0, 50) || 'Spieler'`
-/

/-- Drop characters up to and including the first `'>'`; `none` when there
is none (the regex `<[^>]*>` then fails to match at this `<`, and cannot
match anywhere later either). -/
def afterGt : List Char → Option (List Char)
  | [] => none
  | c :: rest => if c = '>' then some rest else afterGt rest

/-- Fuelled worker for the global replace of `/<[^>]*>/` by `''`; each
step consumes at least one character, so fuel equal to the length of the
input is always sufficient. -/
def stripTagsAux : Nat → List Char → List Char
  | 0, l => l
  | _ + 1, [] => []
  | fuel + 1, c :: rest =>
      if c = '<' then
        match afterGt rest with
        | some rest' => stripTagsAux fuel rest'
        | none => c :: rest
      else c :: stripTagsAux fuel rest

/-- `s.replace(/<[^>]*>/g, '')` on a character list. -/
def stripTags (l : List Char) : List Char := stripTagsAux l.length l

/-- The character class `[\x00-\x1F\x7F]` of the control-character strip. -/
def isCtl (c : Char) : Bool := decide (c.toNat ≤ 0x1F) || decide (c.toNat = 0x7F)

/-- The whitespace set of JS `String.prototype.trim` (restricted to the
code points that can still be present after the control-character strip). -/
def jsTrimWs (c : Char) : Bool :=
  decide (c = ' ') || decide (c.toNat = 0xA0) || decide (c.toNat = 0x1680) ||
  (decide (0x2000 ≤ c.toNat) && decide (c.toNat ≤ 0x200A)) ||
  decide (c.toNat = 0x2028) || decide (c.toNat = 0x2029) ||
  decide (c.toNat = 0x202F) || decide (c.toNat = 0x205F) ||
  decide (c.toNat = 0x3000) || decide (c.toNat = 0xFEFF)

/-- JS `String.prototype.trim`. -/
def jsTrim (l : List Char) : List Char :=
  ((l.dropWhile jsTrimWs).reverse.dropWhile jsTrimWs).reverse

/-- The string pipeline of `sanitizeName` on an actual string. -/
def sanitizeString (s : String) : String :=
  String.mk ((jsTrim ((stripTags s.toList).filter (fun c => !isCtl c))).take 50)

/-- `sanitizeName(name)`: non-strings become `"Spieler"`, otherwise strip
HTML tags and control characters, trim, truncate to 50, with `"Spieler"`
as the fallback for an empty result. -/
def sanitizeName (v : JSVal) : String :=
  match v with
  | .str s => let r := sanitizeString s; if r = "" then "Spieler" else r
  | _ => "Spieler"

/-!
## Data model (server.js lines 7–8, 69–72, 139–146)
-/

abbrev ChannelId := Nat

/-- `const MAX_PLAYERS_PER_ROOM = 240`. -/
def MAX_PLAYERS_PER_ROOM : Nat := 240

/-- `const RATE_LIMIT_PER_SECOND = 20`. -/
def RATE_LIMIT_PER_SECOND : Nat := 20

inductive Role where
  | host
  | player
deriving DecidableEq, Repr

/-- A per-room player record (the object literal at lines 258–263 / 337). -/
structure Player where
  name : String
  score : ℚ
  ws : Option ChannelId
  isConnected : Bool
deriving DecidableEq, Repr

/-- A room (the object literal at lines 139–146 / 243–250).  The timers
are modelled by armed/disarmed flags; `questionStartTime` and
`currentQuestionIndex` are `none` while the fields are still undefined. -/
structure Room where
  hostWs : Option ChannelId
  hostSessionId : String
  players : OMap String Player
  createdAt : Int
  questionStartTime : Option Int := none
  currentQuestionIndex : Option JSNum := none
  hostDisconnectActive : Bool := false
  expiryActive : Bool := false
deriving DecidableEq, Repr

/-- The per-connection fields the server stores on the `ws` object
(`roomId`, `sessionId`, `role`, `_hasRoom`, `_lastRestore`, `_msgCount`). -/
structure Conn where
  roomId : Option String := none
  sessionId : Option String := none
  role : Option Role := none
  hasRoom : Bool := false
  lastRestore : Option Int := none
  msgCount : Nat := 0
deriving DecidableEq, Repr

/-- The identifiers minted during one message (`generateRoomId()`,
`generateSessionId()`).  The rejection-sampling loop of `generateRoomId`
is reflected by the freshness side condition `EventOk` on traces (and by
explicit hypotheses on per-handler theorems). -/
structure Fresh where
  roomId : String
  sessionId : String
deriving DecidableEq, Repr

/-- A player entry of a `restore_room` snapshot (`msg.players[i]`). -/
structure SnapEntry where
  id : JSVal := .undef
  name : JSVal := .undef
  score : JSVal := .undef
deriving DecidableEq, Repr

/-- An entry of a `send_results` leaderboard (`msg.leaderboard[i]`). -/
structure LBEntry where
  name : JSVal := .undef
  score : JSVal := .undef
deriving DecidableEq, Repr

/-- An inbound frame after JSON parsing, keyed by its `type` field.
Fields the server never reads are omitted, except that `submit_answer`
carries its remaining fields as `extra` (the code reads only
`msg.answerData`), which lets client-influence properties be stated.
`unknown` covers every other `type` value (logged and ignored). -/
inductive ClientMsg where
  | createRoom
  | reconnectHost (roomId sessionId : Option String)
  | restoreRoom (roomId sessionId : Option String) (players : Option (List SnapEntry))
  | join (roomCode : Option String) (sessionId playerName : JSVal)
  | submitAnswer (answerData : JSVal) (extra : List (String × JSVal))
  | startQuestion (question options index total duration : JSVal)
  | sendResults (correct isFinal : JSVal) (playerScores : Option (List (String × JSVal)))
      (leaderboard : Option (List LBEntry))
  | terminate
  | unknown
deriving DecidableEq, Repr

/-- One `{sessionId, name, score, isConnected}` element of the player
list sent with `host_reconnected`. -/
structure PInfo where
  sessionId : String
  name : String
  score : ℚ
  isConnected : Bool
deriving DecidableEq, Repr

/-- A sanitized outbound leaderboard entry. -/
structure LB where
  name : String
  score : ℚ
deriving DecidableEq, Repr

/-- An outbound frame.  `hostReconnected` carries `isRestored` as a
`Bool` (`false` models the field being absent); `result` carries the
room's possibly-still-undefined `currentQuestionIndex` as an `Option`. -/
inductive OutMsg where
  | error (message : String)
  | roomCreated (roomId sessionId : String)
  | roomNotFoundTryRestore (roomId sessionId : String)
  | hostReconnected (roomId : String) (players : List PInfo) (isRestored : Bool)
  | joined (sessionId : String) (score : ℚ) (playerName : String) (isReconnect : Bool)
  | playerJoined (sessionId name : String) (playerCount : Nat)
  | playerReconnected (sessionId name : String) (score : ℚ) (playerCount : Nat)
  | playerLeft (sessionId name : String) (playerCount : Nat)
  | playerAnswered (sessionId name : String) (answerData : List JSAtom)
      (answerTime : Int) (elapsedMs : Option Int)
  | question (question : String) (options : List JSAtom) (index total : JSNum)
      (startTime : Int) (duration : JSNum)
  | result (correct isFinal : JSVal) (questionIndex : Option JSNum)
      (leaderboard : Option (List LB)) (playerScore : ℚ)
  | quizTerminated
deriving DecidableEq, Repr

/-- A frame queued on a channel. -/
abbrev Send := ChannelId × OutMsg

/-- The result of running one handler: the updated registry, the updated
per-connection state, and the frames sent (in order). -/
structure HResult where
  rooms : OMap String Room
  conn : Conn
  sends : List Send
deriving DecidableEq, Repr

/-!
## Shared helpers (server.js lines 38–53)
-/

/-- `broadcastToPlayers(room, data)`: every player whose channel is
attached (and hence open) receives the frame, in insertion order. -/
def broadcastToPlayers (room : Room) (out : OutMsg) : List Send :=
  room.players.filterMap (fun p => p.2.ws.map (fun c => (c, out)))

/-- `getConnectedPlayerCount(room)`. -/
def getConnectedPlayerCount (room : Room) : Nat :=
  room.players.countP (fun p => p.2.isConnected)

/-- `String.prototype.toUpperCase`, restricted to ASCII (the
identifiers involved are `[A-Z0-9]` room codes; the full Unicode case
table is irrelevant to them). -/
def jsToUpper (s : String) : String :=
  String.mk (s.toList.map (fun c =>
    if decide ('a' ≤ c) && decide (c ≤ 'z') then Char.ofNat (c.toNat - 32) else c))

/-- `(msg.roomId || '').toUpperCase()`. -/
def jsUpperOpt (o : Option String) : String := jsToUpper (o.getD "")

/-- `id.startsWith('sess-')` as a character-list prefix test (the
built-in `String.startsWith` does not reduce in the kernel). -/
def strStartsWith (s pre : String) : Bool := pre.toList.isPrefixOf s.toList

/-- The player list `[{sessionId, name, score, isConnected}…]` built by
`handleReconnectHost` (lines 199–208) and `handleRestoreRoom`
(lines 283–286). -/
def playerInfoList (room : Room) : List PInfo :=
  room.players.map (fun p =>
    { sessionId := p.1, name := p.2.name, score := p.2.score, isConnected := p.2.isConnected })

/-!
## Handlers (server.js lines 129–467)
-/

/-- The no-op result (silent return). -/
def HResult.noop (st : OMap String Room) (conn : Conn) : HResult :=
  { rooms := st, conn := conn, sends := [] }

/-- `handleCreateRoom` (lines 129–165). -/
def handleCreateRoom (now : Int) (fresh : Fresh) (st : OMap String Room)
    (cid : ChannelId) (conn : Conn) : HResult :=
  if conn.hasRoom then
    { rooms := st, conn := conn,
      sends := [(cid, .error "Du hast bereits einen Raum erstellt.")] }
  else
    let roomId := fresh.roomId
    let hostSessionId := fresh.sessionId
    let room : Room :=
      { hostWs := some cid, hostSessionId := hostSessionId, players := [],
        createdAt := now, hostDisconnectActive := false, expiryActive := true }
    { rooms := st.set roomId room,
      conn := { conn with
          roomId := some roomId, sessionId := some hostSessionId,
          role := some .host, hasRoom := true },
      sends := [(cid, .roomCreated roomId hostSessionId)] }

/-- `handleReconnectHost` (lines 167–212). -/
def handleReconnectHost (st : OMap String Room) (cid : ChannelId) (conn : Conn)
    (msgRoomId msgSessionId : Option String) : HResult :=
  match st.get (jsUpperOpt msgRoomId) with
  | none =>
      if (msgSessionId.getD "") ≠ "" then
        { rooms := st, conn := conn,
          sends := [(cid, .roomNotFoundTryRestore (jsUpperOpt msgRoomId) (msgSessionId.getD ""))] }
      else
        { rooms := st, conn := conn, sends := [(cid, .error "Raum nicht gefunden.")] }
  | some room =>
      if some room.hostSessionId ≠ msgSessionId then
        { rooms := st, conn := conn,
          sends := [(cid, .error "Ungültige Session-ID für diesen Raum.")] }
      else
        let room' := { room with hostDisconnectActive := false, hostWs := some cid }
        { rooms := st.set (jsUpperOpt msgRoomId) room',
          conn := { conn with
              roomId := some (jsUpperOpt msgRoomId), sessionId := msgSessionId,
              role := some .host },
          sends := [(cid, .hostReconnected (jsUpperOpt msgRoomId) (playerInfoList room') false)] }

/-- The player record built for one valid snapshot entry
(lines 258–263). -/
def restoredPlayer (e : SnapEntry) : Player :=
  { name := sanitizeName e.name,
    score := match e.score with
      | .num (.val q) => if 0 ≤ q then q else 0
      | _ => 0,
    ws := none, isConnected := false }

/-- The snapshot-population loop of `handleRestoreRoom` (lines 253–266):
truncate to `MAX_PLAYERS_PER_ROOM`, keep entries whose `id` is a string
with the `sess-` mint format and whose `name` is truthy. -/
def restorePlayers (entries : List SnapEntry) : OMap String Player :=
  (entries.take MAX_PLAYERS_PER_ROOM).foldl (fun acc e =>
    match e.id with
    | .str s =>
        if strStartsWith s "sess-" && e.name.truthy then acc.set s (restoredPlayer e)
        else acc
    | _ => acc) []

/-- The room-recreation tail of `handleRestoreRoom` (lines 242–289),
entered with the final `roomId` (the supplied one, or a freshly minted
one on a code collision with a different host). -/
def mkRestoredRoom (now : Int) (roomId hostSessionId : String)
    (msgPlayers : Option (List SnapEntry)) (st : OMap String Room)
    (cid : ChannelId) (conn1 : Conn) : HResult :=
  let room : Room :=
    { hostWs := some cid, hostSessionId := hostSessionId,
      players := match msgPlayers with
        | some ps => restorePlayers ps
        | none => [],
      createdAt := now, hostDisconnectActive := false, expiryActive := true }
  { rooms := st.set roomId room,
    conn := { conn1 with
        roomId := some roomId, sessionId := some hostSessionId,
        role := some .host },
    sends := [(cid, .hostReconnected roomId (playerInfoList room) true)] }

/-- `handleRestoreRoom` after its rate-limit gate (lines 221–289), with
`conn1` already carrying `_lastRestore = now`: reject missing data
(`!roomId || !hostSessionId`, falsy means the empty string here), then
either degenerate to `handleReconnectHost` (own room still registered),
recreate under a freshly minted code (code taken by another host), or
recreate under the supplied code. -/
def restoreRoomBody (now : Int) (fresh : Fresh) (st : OMap String Room) (cid : ChannelId)
    (conn1 : Conn) (msgRoomId msgSessionId : Option String)
    (msgPlayers : Option (List SnapEntry)) : HResult :=
  if jsUpperOpt msgRoomId = "" ∨ (msgSessionId.getD "") = "" then
    { rooms := st, conn := conn1,
      sends := [(cid, .error "Wiederherstellung fehlgeschlagen: Fehlende Daten.")] }
  else
    match st.get (jsUpperOpt msgRoomId) with
    | some existingRoom =>
        if existingRoom.hostSessionId = (msgSessionId.getD "") then
          handleReconnectHost st cid conn1 msgRoomId msgSessionId
        else
          mkRestoredRoom now fresh.roomId (msgSessionId.getD "") msgPlayers st cid conn1
    | none =>
        mkRestoredRoom now (jsUpperOpt msgRoomId) (msgSessionId.getD "") msgPlayers st cid conn1

/-- `handleRestoreRoom` (lines 214–289): at most one restore per 5
seconds per connection, then the body above. -/
def handleRestoreRoom (now : Int) (fresh : Fresh) (st : OMap String Room)
    (cid : ChannelId) (conn : Conn) (msgRoomId msgSessionId : Option String)
    (msgPlayers : Option (List SnapEntry)) : HResult :=
  if (match conn.lastRestore with
      | some t => decide (now - t < 5000)
      | none => false) then
    { rooms := st, conn := conn,
      sends := [(cid, .error "Bitte warte einen Moment vor der nächsten Wiederherstellung.")] }
  else
    restoreRoomBody now fresh st cid { conn with lastRestore := some now }
      msgRoomId msgSessionId msgPlayers

/-- `(msg.roomCode || '').replace(/\s/g, '').toUpperCase()` (line 292);
the character class `\s` of a JS regex. -/
def jsRegexWs (c : Char) : Bool :=
  decide (c = ' ') || decide (c.toNat = 0x09) || decide (c.toNat = 0x0A) ||
  decide (c.toNat = 0x0B) || decide (c.toNat = 0x0C) || decide (c.toNat = 0x0D) ||
  decide (c.toNat = 0xA0) || decide (c.toNat = 0x1680) ||
  (decide (0x2000 ≤ c.toNat) && decide (c.toNat ≤ 0x200A)) ||
  decide (c.toNat = 0x2028) || decide (c.toNat = 0x2029) ||
  decide (c.toNat = 0x202F) || decide (c.toNat = 0x205F) ||
  decide (c.toNat = 0x3000) || decide (c.toNat = 0xFEFF)

def normalizeRoomCode (o : Option String) : String :=
  jsToUpper (String.mk ((o.getD "").toList.filter (fun c => !jsRegexWs c)))

/-- Lines 300–305 of `handleJoin`: session IDs that are not strings of
the mint format are ignored (treated as absent), and a surviving one is
looked up among the room's players. -/
def joinSessionLookup (room : Room) (msgSessionId : JSVal) : Option (String × Player) :=
  (match msgSessionId with
    | .str s => if strStartsWith s "sess-" then some s else none
    | _ => none).bind (fun s => (room.players.get s).map (fun p => (s, p)))

/-- `handleJoin` (lines 291–356). -/
def handleJoin (fresh : Fresh) (st : OMap String Room) (cid : ChannelId)
    (conn : Conn) (msgRoomCode : Option String) (msgSessionId msgPlayerName : JSVal) :
    HResult :=
  match st.get (normalizeRoomCode msgRoomCode) with
  | none => { rooms := st, conn := conn, sends := [(cid, .error "Raum nicht gefunden.")] }
  | some room =>
      match joinSessionLookup room msgSessionId with
      | some (sessionId, player) =>
          -- Reconnecting existing player (lines 307–326).
          let player' := { player with ws := some cid, isConnected := true }
          let room' := { room with players := room.players.set sessionId player' }
          let conn' := { conn with
              sessionId := some sessionId, roomId := some (normalizeRoomCode msgRoomCode),
              role := some .player }
          let hostSends : List Send := match room.hostWs with
            | some h => [(h, .playerReconnected sessionId player.name player.score
                            (getConnectedPlayerCount room'))]
            | none => []
          { rooms := st.set (normalizeRoomCode msgRoomCode) room', conn := conn',
            sends := (cid, .joined sessionId player.score player.name true) :: hostSends }
      | none =>
          -- New player (lines 327–355).
          if MAX_PLAYERS_PER_ROOM ≤ room.players.length then
            { rooms := st, conn := conn,
              sends := [(cid, .error "Raum ist voll (max. 240 Spieler).")] }
          else
            let sessionId := fresh.sessionId
            let name := sanitizeName msgPlayerName
            let player : Player := { name := name, score := 0, ws := some cid, isConnected := true }
            let room' := { room with players := room.players.set sessionId player }
            let conn' := { conn with
                sessionId := some sessionId, roomId := some (normalizeRoomCode msgRoomCode),
                role := some .player }
            let hostSends : List Send := match room.hostWs with
              | some h => [(h, .playerJoined sessionId name (getConnectedPlayerCount room'))]
              | none => []
            { rooms := st.set (normalizeRoomCode msgRoomCode) room', conn := conn',
              sends := (cid, .joined sessionId 0 name false) :: hostSends }

/-- `elapsedMs` as computed at line 377:
`room.questionStartTime ? serverNow - room.questionStartTime : null`. -/
def elapsedOf (room : Room) (now : Int) : Option Int :=
  match room.questionStartTime with
  | some t => if t ≠ 0 then some (now - t) else none
  | none => none

/-- `handleSubmitAnswer` (lines 358–388). -/
def handleSubmitAnswer (now : Int) (st : OMap String Room) (cid : ChannelId)
    (conn : Conn) (answerData : JSVal) : HResult :=
  match st.getOpt conn.roomId with
  | none => { rooms := st, conn := conn, sends := [(cid, .error "Raum nicht mehr aktiv.")] }
  | some room =>
      match conn.sessionId.bind room.players.get with
      | none => { rooms := st, conn := conn, sends := [(cid, .error "Spieler nicht gefunden.")] }
      | some player =>
          match answerData with
          | .arr xs =>
              if 20 < xs.length then HResult.noop st conn
              else
                match room.hostWs with
                | some h =>
                    { rooms := st, conn := conn,
                      sends := [(h, .playerAnswered (conn.sessionId.getD "") player.name xs
                                    now (elapsedOf room now))] }
                | none => HResult.noop st conn
          | _ => HResult.noop st conn

/-- `handleStartQuestion` (lines 390–418). -/
def handleStartQuestion (now : Int) (st : OMap String Room) (cid : ChannelId)
    (conn : Conn) (question options index total duration : JSVal) : HResult :=
  match conn.roomId with
  | none => HResult.noop st conn
  | some rid =>
      match st.get rid with
      | none => HResult.noop st conn
      | some room =>
          if conn.sessionId ≠ some room.hostSessionId then HResult.noop st conn
          else
            match question, options with
            | .str q, .arr os =>
                if 4000 < q.length then HResult.noop st conn
                else if 20 < os.length then HResult.noop st conn
                else if os.any (fun o => match o with
                  | .str s => decide (500 < s.length)
                  | _ => true) then HResult.noop st conn
                else
                  let questionIndex : JSNum := match index with
                    | .num n => if n.ge0 then n else .val 0
                    | _ => .val 0
                  let questionTotal : JSNum := match total with
                    | .num n => if n.gt0 then n else .val 1
                    | _ => .val 1
                  let dur : JSNum := match duration with
                    | .num n => if n.gt0 && n.le80 then n else .val 30
                    | _ => .val 30
                  let room' := { room with
                      questionStartTime := some now,
                      currentQuestionIndex := some questionIndex }
                  { rooms := st.set rid room', conn := conn,
                    sends := broadcastToPlayers room'
                      (.question q os questionIndex questionTotal now dur) }
            | _, _ => HResult.noop st conn

/-- One iteration of the score-update loop of `handleSendResults`
(lines 426–431): only an existing player with a finite non-negative
numeric score is updated. -/
def applyScore (acc : OMap String Player) (kv : String × JSVal) : OMap String Player :=
  match acc.get kv.1 with
  | some player =>
      match kv.2 with
      | .num (.val q) => if 0 ≤ q then acc.set kv.1 { player with score := q } else acc
      | _ => acc
  | none => acc

/-- The score-update loop of `handleSendResults` (lines 425–432), over
`Object.entries(msg.playerScores)` in order. -/
def applyScores (players : OMap String Player) (scores : List (String × JSVal)) :
    OMap String Player :=
  scores.foldl applyScore players

/-- The leaderboard sanitization of `handleSendResults` (lines 435–441). -/
def sanitizeLB (entries : List LBEntry) : List LB :=
  (entries.take MAX_PLAYERS_PER_ROOM).map (fun e =>
    { name := match e.name with
        | .str s => String.mk (s.toList.take 50)
        | _ => "Spieler",
      score := match e.score with
        | .num (.val q) => q
        | _ => 0 })

/-- `handleSendResults` (lines 420–456). -/
def handleSendResults (st : OMap String Room) (cid : ChannelId) (conn : Conn)
    (correct isFinal : JSVal) (playerScores : Option (List (String × JSVal)))
    (leaderboard : Option (List LBEntry)) : HResult :=
  match st.getOpt conn.roomId with
  | none => HResult.noop st conn
  | some room =>
      if conn.sessionId ≠ some room.hostSessionId then HResult.noop st conn
      else
        let players' := match playerScores with
          | some scores => applyScores room.players scores
          | none => room.players
        let lb : Option (List LB) := match leaderboard with
          | some entries => some (sanitizeLB entries)
          | none => none
        let room' := { room with players := players' }
        { rooms := st.set (conn.roomId.getD "") room', conn := conn,
          sends := room'.players.filterMap (fun p =>
            p.2.ws.map (fun c =>
              (c, OutMsg.result correct isFinal room.currentQuestionIndex lb p.2.score))) }

/-- `handleTerminate` (lines 458–467). -/
def handleTerminate (st : OMap String Room) (cid : ChannelId) (conn : Conn) : HResult :=
  match st.getOpt conn.roomId with
  | none => HResult.noop st conn
  | some room =>
      if conn.sessionId ≠ some room.hostSessionId then HResult.noop st conn
      else
        { rooms := st.del (conn.roomId.getD ""), conn := conn,
          sends := broadcastToPlayers room .quizTerminated }

/-- The `switch (msg.type)` dispatcher (lines 105–117). -/
def dispatch (now : Int) (fresh : Fresh) (st : OMap String Room) (cid : ChannelId)
    (conn : Conn) : ClientMsg → HResult
  | .createRoom => handleCreateRoom now fresh st cid conn
  | .reconnectHost r s => handleReconnectHost st cid conn r s
  | .restoreRoom r s ps => handleRestoreRoom now fresh st cid conn r s ps
  | .join rc sid pn => handleJoin fresh st cid conn rc sid pn
  | .submitAnswer a _extra => handleSubmitAnswer now st cid conn a
  | .startQuestion q o i t d => handleStartQuestion now st cid conn q o i t d
  | .sendResults c f ps lb => handleSendResults st cid conn c f ps lb
  | .terminate => handleTerminate st cid conn
  | .unknown => HResult.noop st conn

/-- The result of the full `ws.on('message')` callback: handler result
plus whether the rate limiter forcibly closed the channel. -/
structure MResult where
  rooms : OMap String Room
  conn : Conn
  sends : List Send
  closed : Bool := false
deriving DecidableEq, Repr

/-- The `ws.on('message')` callback (lines 88–118): bump `_msgCount`,
rate-limit, parse (`raw = none` is unparseable JSON), dispatch. -/
def onMessage (now : Int) (fresh : Fresh) (st : OMap String Room) (cid : ChannelId)
    (conn : Conn) (raw : Option ClientMsg) : MResult :=
  let count := conn.msgCount + 1
  let conn' := { conn with msgCount := count }
  if RATE_LIMIT_PER_SECOND < count then
    { rooms := st, conn := conn',
      sends := [(cid, .error "Zu viele Nachrichten. Bitte warte einen Moment.")],
      closed := decide (RATE_LIMIT_PER_SECOND * 3 < count) }
  else
    match raw with
    | none =>
        { rooms := st, conn := conn',
          sends := [(cid, .error "Ungültiges Nachrichtenformat.")] }
    | some msg =>
        let r := dispatch now fresh st cid conn' msg
        { rooms := r.rooms, conn := r.conn, sends := r.sends }

/-- `handleDisconnect` (lines 469–506), sans the connection-map removal. -/
def handleDisconnect (st : OMap String Room) (conn : Conn) :
    OMap String Room × List Send :=
  match conn.roomId with
  | none => (st, [])
  | some rid =>
      match st.get rid with
      | none => (st, [])
      | some room =>
          if conn.role = some .host then
            (st.set rid { room with hostWs := none, hostDisconnectActive := true }, [])
          else if conn.role = some .player then
            match conn.sessionId.bind room.players.get with
            | some player =>
                let player' := { player with isConnected := false, ws := none }
                let room' := { room with
                  players := room.players.set (conn.sessionId.getD "") player' }
                let hostSends : List Send := match room.hostWs with
                  | some h => [(h, .playerLeft (conn.sessionId.getD "") player.name
                                  (getConnectedPlayerCount room'))]
                  | none => []
                (st.set rid room', hostSends)
            | none => (st, [])
          else (st, [])

/-!
## Process-level transition system

One `GState` holds the room registry and the per-connection state of
every attached channel.  Events are: a channel attaching, an inbound
frame, the per-channel 1-second counter reset (`setInterval`, line 86),
a channel closing, and the two room timers firing.
-/

structure GState where
  rooms : OMap String Room
  conns : OMap ChannelId Conn
deriving DecidableEq, Repr

inductive Event where
  | connect (cid : ChannelId)
  | message (cid : ChannelId) (now : Int) (fresh : Fresh) (raw : Option ClientMsg)
  | rateReset (cid : ChannelId)
  | disconnect (cid : ChannelId)
  | expiryFire (roomId : String)
  | hostTimeoutFire (roomId : String)
deriving DecidableEq, Repr

/-- Apply one event; returns the new state and the frames sent.  A
rate-limit force-close (`ws.terminate()`, line 94) also runs the close
handler.  `expiryFire`/`hostTimeoutFire` model the timer callbacks at
lines 156–161 and 480–488; a fire is only possible while the timer is
armed, and the host-timeout callback's own re-check (`!room.hostWs &&
rooms.get(...) === room`) appears as the `hostWs = none` guard. -/
def applyEvent (g : GState) : Event → GState × List Send
  | .connect cid => ({ g with conns := g.conns.set cid {} }, [])
  | .message cid now fresh raw =>
      match g.conns.get cid with
      | none => (g, [])
      | some conn =>
          let r := onMessage now fresh g.rooms cid conn raw
          if r.closed then
            let dc := handleDisconnect r.rooms r.conn
            ({ rooms := dc.1, conns := g.conns.del cid }, r.sends ++ dc.2)
          else
            ({ rooms := r.rooms, conns := g.conns.set cid r.conn }, r.sends)
  | .rateReset cid =>
      match g.conns.get cid with
      | none => (g, [])
      | some conn => ({ g with conns := g.conns.set cid { conn with msgCount := 0 } }, [])
  | .disconnect cid =>
      match g.conns.get cid with
      | none => (g, [])
      | some conn =>
          let dc := handleDisconnect g.rooms conn
          ({ rooms := dc.1, conns := g.conns.del cid }, dc.2)
  | .expiryFire rid =>
      match g.rooms.get rid with
      | some room =>
          if room.expiryActive then
            ({ g with rooms := g.rooms.del rid }, broadcastToPlayers room .quizTerminated)
          else (g, [])
      | none => (g, [])
  | .hostTimeoutFire rid =>
      match g.rooms.get rid with
      | some room =>
          if room.hostDisconnectActive && room.hostWs = none then
            ({ g with rooms := g.rooms.del rid }, broadcastToPlayers room .quizTerminated)
          else (g, [])
      | none => (g, [])

/-- The empty server at process start. -/
def initialState : GState := { rooms := [], conns := [] }

/-- Side condition on an event: for a message, the minted room id is not
already registered — the postcondition of `generateRoomId`'s
rejection-sampling loop (lines 12–20).  The minted session id carries no
such guarantee (`crypto.randomUUID`, line 23). -/
def EventOk (g : GState) : Event → Prop
  | .message _ _ fresh _ => g.rooms.get fresh.roomId = none
  | _ => True

/-- The states a server process can actually be in. -/
inductive Reachable : GState → Prop
  | init : Reachable initialState
  | step {g : GState} {e : Event} : Reachable g → EventOk g e →
      Reachable (applyEvent g e).1

/-!
## Rate limiting as a timed per-channel trace (lines 84–97)

`_msgCount` is bumped per message and cleared by a `setInterval` firing
every 1000 ms from the moment the channel attaches, so arrivals are
counted per fixed window `t / 1000`, not per rolling window.  Arrival
times are in milliseconds from channel attach, in order.
-/

inductive RateOutcome where
  | dispatched
  | errored
  | dropped
deriving DecidableEq, Repr

structure RState where
  window : Nat := 0
  count : Nat := 0
  closed : Bool := false
deriving DecidableEq, Repr

/-- The value of `++ws._msgCount` seen by an arrival at time `t`: the
interval reset (line 86) has cleared the counter whenever a 1-second
tick lies between the previous arrival's window and this one's. -/
def rateCount (s : RState) (t : Nat) : Nat :=
  (if t / 1000 = s.window then s.count else 0) + 1

/-- Process one arrival at time `t`: on a closed channel nothing happens;
otherwise the counter is bumped and compared against the limit exactly
as in lines 90–96. -/
def rateStep (s : RState) (t : Nat) : RState × RateOutcome :=
  if s.closed then (s, .dropped)
  else
    if RATE_LIMIT_PER_SECOND < rateCount s t then
      ({ window := t / 1000, count := rateCount s t,
         closed := decide (RATE_LIMIT_PER_SECOND * 3 < rateCount s t) },
       .errored)
    else
      ({ window := t / 1000, count := rateCount s t, closed := false }, .dispatched)

def runRate : RState → List Nat → List RateOutcome
  | _, [] => []
  | s, t :: ts =>
      let r := rateStep s t
      r.2 :: runRate r.1 ts

/-- Outcomes of a whole arrival trace on a fresh channel. -/
def rateOutcomes (ts : List Nat) : List RateOutcome := runRate {} ts

/-- How many arrivals with time in `[lo, hi)` were dispatched to the
message dispatcher. -/
def dispatchedIn (ts : List Nat) (lo hi : Nat) : Nat :=
  ((ts.zip (rateOutcomes ts)).filter
    (fun p => decide (lo ≤ p.1) && decide (p.1 < hi) &&
      decide (p.2 = RateOutcome.dispatched))).length


/-!
## Map lemmas
-/

theorem OMap.get_set {α β : Type} [DecidableEq α] (m : OMap α β) (k k' : α) (v : β) :
    (m.set k v).get k' = if k = k' then some v else m.get k' := by
  induction m with
  | nil =>
      simp only [OMap.set, OMap.get]
  | cons hd tl ih =>
      obtain ⟨k₀, v₀⟩ := hd
      by_cases h : k₀ = k
      · subst h
        simp only [OMap.set, if_pos rfl, OMap.get]
        by_cases h' : k₀ = k' <;> simp [h']
      · have hks : ¬ k = k₀ := fun hh => h hh.symm
        simp only [OMap.set, if_neg h, OMap.get, ih]
        by_cases h' : k₀ = k'
        · subst h'
          simp [hks]
        · simp [h']

theorem OMap.mem_keys_of_get_isSome {α β : Type} [DecidableEq α] (m : OMap α β) (k : α)
    (h : (m.get k).isSome) : k ∈ m.map Prod.fst := by
  induction m with
  | nil => simp [OMap.get] at h
  | cons hd tl ih =>
      obtain ⟨k₀, v₀⟩ := hd
      by_cases hk : k₀ = k
      · simp [hk]
      · simp only [OMap.get, if_neg hk] at h
        simp only [List.map_cons, List.mem_cons]
        exact Or.inr (ih h)

theorem OMap.get_eq_none_of_not_mem {α β : Type} [DecidableEq α] (m : OMap α β) (k : α)
    (h : k ∉ m.map Prod.fst) : m.get k = none := by
  rcases hg : m.get k with _ | v
  · rfl
  · exact absurd (OMap.mem_keys_of_get_isSome m k (by rw [hg]; rfl)) h

theorem OMap.get_isSome_of_mem_keys {α β : Type} [DecidableEq α] (m : OMap α β) (k : α)
    (h : k ∈ m.map Prod.fst) : (m.get k).isSome := by
  induction m with
  | nil => simp at h
  | cons hd tl ih =>
      obtain ⟨k₀, v₀⟩ := hd
      by_cases hk : k₀ = k
      · simp [OMap.get, hk]
      · simp only [List.map_cons, List.mem_cons] at h
        rcases h with h | h
        · exact absurd h.symm hk
        · simp only [OMap.get, if_neg hk]
          exact ih h

theorem OMap.keys_set_of_mem {α β : Type} [DecidableEq α] (m : OMap α β) (k : α) (v : β)
    (h : (m.get k).isSome) : (m.set k v).map Prod.fst = m.map Prod.fst := by
  induction m with
  | nil => simp [OMap.get] at h
  | cons hd tl ih =>
      obtain ⟨k₀, v₀⟩ := hd
      by_cases hk : k₀ = k
      · subst hk
        simp [OMap.set]
      · simp only [OMap.get, if_neg hk] at h
        simp [OMap.set, if_neg hk, ih h]

theorem OMap.keys_set_of_new {α β : Type} [DecidableEq α] (m : OMap α β) (k : α) (v : β)
    (h : m.get k = none) : (m.set k v).map Prod.fst = m.map Prod.fst ++ [k] := by
  induction m with
  | nil => simp [OMap.set]
  | cons hd tl ih =>
      obtain ⟨k₀, v₀⟩ := hd
      by_cases hk : k₀ = k
      · subst hk
        simp [OMap.get] at h
      · simp only [OMap.get, if_neg hk] at h
        simp [OMap.set, if_neg hk, ih h]

theorem OMap.length_set {α β : Type} [DecidableEq α] (m : OMap α β) (k : α) (v : β) :
    (m.set k v).length = if (m.get k).isSome then m.length else m.length + 1 := by
  by_cases h : (m.get k).isSome
  · rw [if_pos h]
    calc (m.set k v).length = ((m.set k v).map Prod.fst).length := by simp
    _ = (m.map Prod.fst).length := by rw [OMap.keys_set_of_mem m k v h]
    _ = m.length := by simp
  · rw [if_neg h]
    have h' : m.get k = none := by
      rcases hg : m.get k with _ | v'
      · rfl
      · rw [hg] at h; simp at h
    calc (m.set k v).length = ((m.set k v).map Prod.fst).length := by simp
    _ = (m.map Prod.fst ++ [k]).length := by rw [OMap.keys_set_of_new m k v h']
    _ = m.length + 1 := by simp

theorem OMap.length_set_le {α β : Type} [DecidableEq α] (m : OMap α β) (k : α) (v : β) :
    (m.set k v).length ≤ m.length + 1 := by
  rw [OMap.length_set]
  split <;> omega

theorem OMap.del_sublist {α β : Type} [DecidableEq α] (m : OMap α β) (k : α) :
    (m.del k).Sublist m := by
  induction m with
  | nil => simp [OMap.del]
  | cons hd tl ih =>
      obtain ⟨k₀, v₀⟩ := hd
      by_cases hk : k₀ = k
      · simp only [OMap.del, if_pos hk]
        exact List.sublist_cons_self _ _
      · simp only [OMap.del, if_neg hk]
        exact ih.cons₂ _

theorem OMap.get_del {α β : Type} [DecidableEq α] (m : OMap α β) (k k' : α)
    (hnd : (m.map Prod.fst).Nodup) :
    (m.del k).get k' = if k = k' then none else m.get k' := by
  induction m with
  | nil => simp [OMap.del, OMap.get]
  | cons hd tl ih =>
      obtain ⟨k₀, v₀⟩ := hd
      simp only [List.map_cons, List.nodup_cons] at hnd
      by_cases h : k₀ = k
      · subst h
        simp only [OMap.del, if_pos rfl]
        by_cases h' : k₀ = k'
        · subst h'
          rw [if_pos rfl]
          exact OMap.get_eq_none_of_not_mem tl k₀ hnd.1
        · have hks : ¬ k₀ = k' := h'
          simp [OMap.get, hks]
      · have hks : ¬ k = k₀ := fun hh => h hh.symm
        simp only [OMap.del, if_neg h, OMap.get, ih hnd.2]
        by_cases h' : k₀ = k'
        · subst h'
          simp [hks]
        · simp [h']

theorem OMap.nodup_keys_set {α β : Type} [DecidableEq α] (m : OMap α β) (k : α) (v : β)
    (hnd : (m.map Prod.fst).Nodup) : ((m.set k v).map Prod.fst).Nodup := by
  by_cases h : (m.get k).isSome
  · rwa [OMap.keys_set_of_mem m k v h]
  · have h' : m.get k = none := by
      rcases hg : m.get k with _ | v'
      · rfl
      · rw [hg] at h; simp at h
    rw [OMap.keys_set_of_new m k v h']
    refine List.Nodup.append hnd (List.nodup_singleton k) ?_
    intro x hx hx'
    simp only [List.mem_singleton] at hx'
    subst hx'
    have := OMap.get_isSome_of_mem_keys m x hx
    rw [h'] at this
    simp at this

theorem OMap.nodup_keys_del {α β : Type} [DecidableEq α] (m : OMap α β) (k : α)
    (hnd : (m.map Prod.fst).Nodup) : ((m.del k).map Prod.fst).Nodup :=
  ((OMap.del_sublist m k).map Prod.fst).nodup hnd

theorem applyScore_keys (m : OMap String Player) (kv : String × JSVal) :
    (applyScore m kv).map Prod.fst = m.map Prod.fst := by
  unfold applyScore
  rcases hg : m.get kv.1 with _ | player
  · rfl
  · rcases kv.2 with _ | _ | _ | n | _ | _
    case num =>
      rcases n with _ | _ | _ | q
      · rfl
      · rfl
      · rfl
      · by_cases hq : (0:ℚ) ≤ q
        · simp only [if_pos hq]
          exact OMap.keys_set_of_mem _ _ _ (by rw [hg]; rfl)
        · simp only [if_neg hq]
    all_goals rfl

theorem applyScores_keys (players : OMap String Player) (scores : List (String × JSVal)) :
    (applyScores players scores).map Prod.fst = players.map Prod.fst := by
  induction scores generalizing players with
  | nil => simp [applyScores]
  | cons hd tl ih =>
      simp only [applyScores, List.foldl_cons] at ih ⊢
      rw [ih, applyScore_keys]

theorem applyScores_length (players : OMap String Player) (scores : List (String × JSVal)) :
    (applyScores players scores).length = players.length := by
  have := applyScores_keys players scores
  calc (applyScores players scores).length
      = ((applyScores players scores).map Prod.fst).length := by simp
  _ = (players.map Prod.fst).length := by rw [this]
  _ = players.length := by simp

/-- Any frame produced by a broadcast carries the broadcast payload. -/
theorem mem_broadcast {room : Room} {out : OutMsg} {p : Send}
    (h : p ∈ broadcastToPlayers room out) : p.2 = out := by
  simp only [broadcastToPlayers, List.mem_filterMap] at h
  obtain ⟨e, _, he⟩ := h
  rcases hws : e.2.ws with _ | c
  · rw [hws] at he; simp [Option.map] at he
  · rw [hws] at he
    simp only [Option.map, Option.some.injEq] at he
    rw [← he]

/-- The restore loop only ever grows the accumulator by `set`s, so its
size is bounded by the number of snapshot entries processed. -/
theorem restoreFold_length (entries : List SnapEntry) (acc : OMap String Player) :
    (entries.foldl (fun acc e =>
      match e.id with
      | .str s =>
          if strStartsWith s "sess-" && e.name.truthy then acc.set s (restoredPlayer e)
          else acc
      | _ => acc) acc).length ≤ acc.length + entries.length := by
  induction entries generalizing acc with
  | nil => simp
  | cons hd tl ih =>
      simp only [List.foldl_cons, List.length_cons]
      rcases hd.id with _ | _ | _ | _ | s | _
      case str =>
        by_cases hc : strStartsWith s "sess-" && hd.name.truthy
        · simp only [if_pos hc]
          calc _ ≤ (acc.set s (restoredPlayer hd)).length + tl.length := ih _
          _ ≤ (acc.length + 1) + tl.length :=
              Nat.add_le_add_right (OMap.length_set_le _ _ _) _
          _ = acc.length + (tl.length + 1) := by omega
        · simp only [if_neg hc]
          calc _ ≤ acc.length + tl.length := ih _
          _ ≤ acc.length + (tl.length + 1) := by omega
      all_goals {
        calc _ ≤ acc.length + tl.length := ih _
        _ ≤ acc.length + (tl.length + 1) := by omega }

theorem restorePlayers_length (entries : List SnapEntry) :
    (restorePlayers entries).length ≤ MAX_PLAYERS_PER_ROOM := by
  have h := restoreFold_length (entries.take MAX_PLAYERS_PER_ROOM) []
  simp only [List.length_nil, Nat.zero_add] at h
  calc (restorePlayers entries).length
      ≤ (entries.take MAX_PLAYERS_PER_ROOM).length := h
  _ ≤ MAX_PLAYERS_PER_ROOM := by
      rw [List.length_take]
      omega

/-!
## C1 — host-only verbs from unauthorized channels are silent no-ops
-/

/-- The three verbs guarded by `!room || ws.sessionId !== room.hostSessionId`
(lines 392, 422, 460). -/
def IsHostOnly : ClientMsg → Prop
  | .startQuestion _ _ _ _ _ => True
  | .sendResults _ _ _ _ => True
  | .terminate => True
  | _ => False

/-- The channel is not the authorized host of its bound room: either the
bound room does not exist in the registry, or its `hostSessionId` differs
from the channel's `sessionId`. -/
def NotHostAuthorized (st : OMap String Room) (conn : Conn) : Prop :=
  ∀ room, st.getOpt conn.roomId = some room → conn.sessionId ≠ some room.hostSessionId

/-- C1: a `start_question`, `send_results`, or `terminate` frame arriving
on a channel whose `sessionId` differs from its bound room's
`hostSessionId` (or whose bound room is absent from the registry) returns
without mutating any room state and without sending any frame on any
channel. -/
theorem hostOnly_unauthorized_silent (now : Int) (fresh : Fresh) (st : OMap String Room)
    (cid : ChannelId) (conn : Conn) (msg : ClientMsg) (hho : IsHostOnly msg)
    (hna : NotHostAuthorized st conn) :
    dispatch now fresh st cid conn msg = HResult.noop st conn := by
  cases msg with
  | startQuestion q o i t d =>
      show handleStartQuestion now st cid conn q o i t d = HResult.noop st conn
      unfold handleStartQuestion
      rcases hrid : conn.roomId with _ | rid
      · rfl
      · rcases hroom : st.get rid with _ | room
        · simp [hroom]
        · have hne := hna room (by simp [OMap.getOpt, hrid, hroom])
          simp [hroom, hne]
  | sendResults c f ps lb =>
      show handleSendResults st cid conn c f ps lb = HResult.noop st conn
      unfold handleSendResults
      rcases hroom : st.getOpt conn.roomId with _ | room
      · rfl
      · have hne := hna room hroom
        simp [hne]
  | terminate =>
      show handleTerminate st cid conn = HResult.noop st conn
      unfold handleTerminate
      rcases hroom : st.getOpt conn.roomId with _ | room
      · rfl
      · have hne := hna room hroom
        simp [hne]
  | createRoom => exact hho.elim
  | reconnectHost r s => exact hho.elim
  | restoreRoom r s ps => exact hho.elim
  | join rc sid pn => exact hho.elim
  | submitAnswer a e => exact hho.elim
  | unknown => exact hho.elim

/-- A demo room used to instantiate theorems at concrete inputs. -/
def demoRoom : Room :=
  { hostWs := some 0, hostSessionId := "sess-host", createdAt := 0,
    players := [("sess-bob", { name := "Bob", score := 3, ws := some 1, isConnected := true })],
    expiryActive := true }

/-- A channel bound to `demoRoom` with a non-host session id. -/
def demoEvilConn : Conn :=
  { roomId := some "AAAA", sessionId := some "sess-evil", role := some .player }

theorem hostOnly_unauthorized_silent_witness :
    dispatch 0 ⟨"BBBB", "sess-x"⟩ [("AAAA", demoRoom)] 7 demoEvilConn .terminate
      = HResult.noop [("AAAA", demoRoom)] demoEvilConn := by
  apply hostOnly_unauthorized_silent
  · trivial
  · intro room hr
    have hrm : demoRoom = room := by
      simpa [demoEvilConn, OMap.getOpt, OMap.get] using hr
    subst hrm
    decide

/-!
## C2 — server-authoritative answer timing
-/

/-- Any `player_answered` frame produced by `handleSubmitAnswer` carries
the server clock as `answerTime` and an `elapsedMs` computed from the
room's stored `questionStartTime`. -/
theorem handleSubmitAnswer_playerAnswered {now : Int} {st : OMap String Room}
    {cid : ChannelId} {conn : Conn} {a : JSVal} {c : ChannelId} {sid nm : String}
    {ad : List JSAtom} {tAns : Int} {el : Option Int}
    (hmem : (c, OutMsg.playerAnswered sid nm ad tAns el)
        ∈ (handleSubmitAnswer now st cid conn a).sends) :
    tAns = now ∧ ∃ room, st.getOpt conn.roomId = some room ∧ el = elapsedOf room now := by
  unfold handleSubmitAnswer at hmem
  split at hmem
  · simp at hmem
  next room hroom =>
    split at hmem
    · simp at hmem
    next player hplayer =>
      split at hmem
      next xs =>
        split at hmem
        · simp [HResult.noop] at hmem
        · split at hmem
          next h hws =>
            simp only [List.mem_singleton, Prod.mk.injEq, OutMsg.playerAnswered.injEq] at hmem
            refine ⟨hmem.2.2.2.2.1, room, hroom, ?_⟩
            exact hmem.2.2.2.2.2
          · simp [HResult.noop] at hmem
      · simp [HResult.noop] at hmem

/-- `handleStartQuestion` either leaves a registry entry untouched or
stamps it with `questionStartTime = now`. -/
theorem handleStartQuestion_rooms {now : Int} {st : OMap String Room} {cid : ChannelId}
    {conn : Conn} {q o i t d : JSVal} {rid : String} {room' : Room}
    (h : (handleStartQuestion now st cid conn q o i t d).rooms.get rid = some room') :
    st.get rid = some room' ∨ room'.questionStartTime = some now := by
  unfold handleStartQuestion at h
  iterate 8 (all_goals try split at h)
  all_goals try (exact Or.inl h)
  all_goals {
    simp only [OMap.get_set] at h
    split at h
    · right
      injection h with h'
      rw [← h']
    · exact Or.inl h }

/-- C2: the `answerTime` and `elapsedMs` of every forwarded
`player_answered` are computed solely from the server clock and the
room's server-recorded `questionStartTime`: two `submit_answer` frames
identical in `answerData` but differing in any other client-supplied
field produce identical handler results; every forwarded frame carries
`answerTime = now` and `elapsedMs` derived from the stored
`questionStartTime`; and an accepted `start_question` sets
`questionStartTime` to the server's `now`, never to a client-supplied
value. -/
theorem answer_timing_server_authoritative (now : Int) (fresh : Fresh)
    (st : OMap String Room) (cid : ChannelId) (conn : Conn) :
    (∀ a e₁ e₂, dispatch now fresh st cid conn (.submitAnswer a e₁)
        = dispatch now fresh st cid conn (.submitAnswer a e₂)) ∧
    (∀ a e c sid nm ad tAns el,
        (c, OutMsg.playerAnswered sid nm ad tAns el)
            ∈ (dispatch now fresh st cid conn (.submitAnswer a e)).sends →
        tAns = now ∧ ∃ room, st.getOpt conn.roomId = some room ∧ el = elapsedOf room now) ∧
    (∀ q o i t d rid room',
        (dispatch now fresh st cid conn (.startQuestion q o i t d)).rooms.get rid
            = some room' →
        st.get rid = some room' ∨ room'.questionStartTime = some now) := by
  refine ⟨fun a e₁ e₂ => rfl, ?_, ?_⟩
  · intro a e c sid nm ad tAns el hmem
    exact handleSubmitAnswer_playerAnswered hmem
  · intro q o i t d rid room' h
    exact @handleStartQuestion_rooms now st cid conn q o i t d rid room' h

/-- The host channel of `demoRoom`. -/
def demoHostConn : Conn :=
  { roomId := some "AAAA", sessionId := some "sess-host", role := some .host, hasRoom := true }

/-- The channel of player `sess-bob` of `demoRoom`. -/
def demoPlayerConn : Conn :=
  { roomId := some "AAAA", sessionId := some "sess-bob", role := some .player }

/-- `demoRoom` after a `start_question` accepted at server time 7. -/
def demoRoomStarted : Room :=
  { demoRoom with questionStartTime := some 7, currentQuestionIndex := some (.val 0) }

theorem answer_timing_server_authoritative_witness :
    (dispatch 7 ⟨"BBBB", "sess-x"⟩ [("AAAA", demoRoom)] 1 demoPlayerConn
        (.submitAnswer (.arr [.num (.val 2)]) [("clientTime", .num (.val 999))])
      = dispatch 7 ⟨"BBBB", "sess-x"⟩ [("AAAA", demoRoom)] 1 demoPlayerConn
        (.submitAnswer (.arr [.num (.val 2)]) [])) ∧
    ((7:Int) = 7 ∧ ∃ room, OMap.getOpt [("AAAA", demoRoom)] demoPlayerConn.roomId = some room ∧
        (none : Option Int) = elapsedOf room 7) ∧
    (OMap.get [("AAAA", demoRoom)] "AAAA" = some demoRoomStarted ∨
        demoRoomStarted.questionStartTime = some 7) := by
  refine ⟨?_, ?_, ?_⟩
  · exact (answer_timing_server_authoritative 7 ⟨"BBBB", "sess-x"⟩ [("AAAA", demoRoom)] 1
      demoPlayerConn).1 (.arr [.num (.val 2)]) [("clientTime", .num (.val 999))] []
  · exact (answer_timing_server_authoritative 7 ⟨"BBBB", "sess-x"⟩ [("AAAA", demoRoom)] 1
      demoPlayerConn).2.1 (.arr [.num (.val 2)]) [("clientTime", .num (.val 999))]
      0 "sess-bob" "Bob" [.num (.val 2)] 7 none (List.mem_singleton.mpr rfl)
  · exact (answer_timing_server_authoritative 7 ⟨"BBBB", "sess-x"⟩ [("AAAA", demoRoom)] 1
      demoHostConn).2.2 (.str "Q") (.arr [.str "a"]) (.num (.val 0)) (.num (.val 1))
      (.num (.val 20)) "AAAA" demoRoomStarted rfl

/-!
## C3 — recoverable protocol errors are isolated and state-preserving
-/

/-- A handler result is error-isolated when any `{type:"error"}` frame it
emits is its only frame, goes to the offending channel, and comes with an
unchanged room registry. -/
def ErrorIso (st : OMap String Room) (cid : ChannelId) (r : HResult) : Prop :=
  ∀ c m, (c, OutMsg.error m) ∈ r.sends →
    r.rooms = st ∧ r.sends = [(cid, OutMsg.error m)]

theorem errorIso_createRoom (now : Int) (fresh : Fresh) (st : OMap String Room)
    (cid : ChannelId) (conn : Conn) :
    ErrorIso st cid (handleCreateRoom now fresh st cid conn) := by
  unfold handleCreateRoom
  by_cases h : conn.hasRoom
  · simp only [if_pos h]
    intro c m hmem
    simp only [List.mem_singleton, Prod.mk.injEq, OutMsg.error.injEq] at hmem
    obtain ⟨rfl, rfl⟩ := hmem
    exact ⟨rfl, rfl⟩
  · simp only [if_neg h]
    intro c m hmem
    simp at hmem

theorem errorIso_reconnectHost (st : OMap String Room) (cid : ChannelId) (conn : Conn)
    (r s : Option String) : ErrorIso st cid (handleReconnectHost st cid conn r s) := by
  intro c m hmem
  unfold handleReconnectHost at hmem ⊢
  rcases hroom : st.get (jsUpperOpt r) with _ | room <;>
    simp only [hroom] at hmem ⊢
  · by_cases hs : (s.getD "") ≠ ""
    · rw [if_pos hs] at hmem
      simp at hmem
    · rw [if_neg hs] at hmem ⊢
      simp only [List.mem_singleton, Prod.mk.injEq, OutMsg.error.injEq] at hmem
      obtain ⟨rfl, rfl⟩ := hmem
      exact ⟨rfl, rfl⟩
  · by_cases hs : some room.hostSessionId ≠ s
    · rw [if_pos hs] at hmem ⊢
      simp only [List.mem_singleton, Prod.mk.injEq, OutMsg.error.injEq] at hmem
      obtain ⟨rfl, rfl⟩ := hmem
      exact ⟨rfl, rfl⟩
    · rw [if_neg hs] at hmem
      simp at hmem

theorem errorIso_mkRestoredRoom (now : Int) (roomId hostSessionId : String)
    (ps : Option (List SnapEntry)) (st : OMap String Room) (cid : ChannelId)
    (conn1 : Conn) :
    ErrorIso st cid (mkRestoredRoom now roomId hostSessionId ps st cid conn1) := by
  unfold mkRestoredRoom
  intro c m hmem
  simp at hmem

theorem errorIso_restoreRoomBody (now : Int) (fresh : Fresh) (st : OMap String Room)
    (cid : ChannelId) (conn1 : Conn) (r s : Option String)
    (ps : Option (List SnapEntry)) :
    ErrorIso st cid (restoreRoomBody now fresh st cid conn1 r s ps) := by
  intro c m hmem
  unfold restoreRoomBody at hmem ⊢
  by_cases hmd : jsUpperOpt r = "" ∨ (s.getD "") = ""
  · rw [if_pos hmd] at hmem ⊢
    simp only [List.mem_singleton, Prod.mk.injEq, OutMsg.error.injEq] at hmem
    obtain ⟨rfl, rfl⟩ := hmem
    exact ⟨rfl, rfl⟩
  · rw [if_neg hmd] at hmem ⊢
    rcases hg : st.get (jsUpperOpt r) with _ | ex <;> simp only [hg] at hmem ⊢
    · exact errorIso_mkRestoredRoom now _ _ ps st cid _ c m hmem
    · by_cases hh : ex.hostSessionId = (s.getD "")
      · rw [if_pos hh] at hmem ⊢
        exact errorIso_reconnectHost st cid _ r s c m hmem
      · rw [if_neg hh] at hmem ⊢
        exact errorIso_mkRestoredRoom now _ _ ps st cid _ c m hmem

theorem errorIso_restoreRoom (now : Int) (fresh : Fresh) (st : OMap String Room)
    (cid : ChannelId) (conn : Conn) (r s : Option String)
    (ps : Option (List SnapEntry)) :
    ErrorIso st cid (handleRestoreRoom now fresh st cid conn r s ps) := by
  intro c m hmem
  unfold handleRestoreRoom at hmem ⊢
  by_cases hrl : (match conn.lastRestore with
      | some t => decide (now - t < 5000)
      | none => false) = true
  · rw [if_pos hrl] at hmem ⊢
    simp only [List.mem_singleton, Prod.mk.injEq, OutMsg.error.injEq] at hmem
    obtain ⟨rfl, rfl⟩ := hmem
    exact ⟨rfl, rfl⟩
  · rw [if_neg hrl] at hmem ⊢
    exact errorIso_restoreRoomBody now fresh st cid _ r s ps c m hmem

theorem errorIso_join (fresh : Fresh) (st : OMap String Room) (cid : ChannelId)
    (conn : Conn) (rc : Option String) (sid pn : JSVal) :
    ErrorIso st cid (handleJoin fresh st cid conn rc sid pn) := by
  intro c m hmem
  unfold handleJoin at hmem ⊢
  rcases hroom : st.get (normalizeRoomCode rc) with _ | room <;>
    simp only [hroom] at hmem ⊢
  · simp_all
  · split at hmem
    · exfalso
      simp only [List.mem_cons] at hmem
      rcases hmem with h | hmem
      · simp at h
      · rcases hws : room.hostWs with _ | hch <;> rw [hws] at hmem <;> simp at hmem
    · split at hmem
      · simp_all
      · exfalso
        simp only [List.mem_cons] at hmem
        rcases hmem with h | hmem
        · simp at h
        · rcases hws : room.hostWs with _ | hch <;> rw [hws] at hmem <;> simp at hmem

theorem errorIso_submitAnswer (now : Int) (st : OMap String Room) (cid : ChannelId)
    (conn : Conn) (a : JSVal) :
    ErrorIso st cid (handleSubmitAnswer now st cid conn a) := by
  unfold handleSubmitAnswer
  split
  · intro c m hmem
    simp only [List.mem_singleton, Prod.mk.injEq, OutMsg.error.injEq] at hmem
    obtain ⟨rfl, rfl⟩ := hmem
    exact ⟨rfl, rfl⟩
  · split
    · intro c m hmem
      simp only [List.mem_singleton, Prod.mk.injEq, OutMsg.error.injEq] at hmem
      obtain ⟨rfl, rfl⟩ := hmem
      exact ⟨rfl, rfl⟩
    · split
      · split
        · intro c m hmem
          simp [HResult.noop] at hmem
        · split
          · intro c m hmem
            simp at hmem
          · intro c m hmem
            simp [HResult.noop] at hmem
      · intro c m hmem
        simp [HResult.noop] at hmem

theorem errorIso_startQuestion (now : Int) (st : OMap String Room) (cid : ChannelId)
    (conn : Conn) (q o i t d : JSVal) :
    ErrorIso st cid (handleStartQuestion now st cid conn q o i t d) := by
  intro c m hmem
  unfold handleStartQuestion at hmem
  iterate 10 (all_goals try split at hmem)
  all_goals try (simp [HResult.noop] at hmem)
  all_goals {
    exfalso
    have hb := mem_broadcast hmem
    simp at hb }

theorem errorIso_sendResults (st : OMap String Room) (cid : ChannelId) (conn : Conn)
    (cor fin : JSVal) (ps : Option (List (String × JSVal)))
    (lb : Option (List LBEntry)) :
    ErrorIso st cid (handleSendResults st cid conn cor fin ps lb) := by
  intro c m hmem
  unfold handleSendResults at hmem
  iterate 3 (all_goals try split at hmem)
  all_goals simp [HResult.noop] at hmem

theorem errorIso_terminate (st : OMap String Room) (cid : ChannelId) (conn : Conn) :
    ErrorIso st cid (handleTerminate st cid conn) := by
  intro c m hmem
  unfold handleTerminate at hmem
  iterate 3 (all_goals try split at hmem)
  all_goals try (simp [HResult.noop] at hmem)
  exfalso
  have := mem_broadcast hmem
  simp at this

theorem errorIso_dispatch (now : Int) (fresh : Fresh) (st : OMap String Room)
    (cid : ChannelId) (conn : Conn) (msg : ClientMsg) :
    ErrorIso st cid (dispatch now fresh st cid conn msg) := by
  cases msg with
  | createRoom => exact errorIso_createRoom now fresh st cid conn
  | reconnectHost r s => exact errorIso_reconnectHost st cid conn r s
  | restoreRoom r s ps => exact errorIso_restoreRoom now fresh st cid conn r s ps
  | join rc sid pn => exact errorIso_join fresh st cid conn rc sid pn
  | submitAnswer a e => exact errorIso_submitAnswer now st cid conn a
  | startQuestion q o i t d => exact errorIso_startQuestion now st cid conn q o i t d
  | sendResults cor fin ps lb => exact errorIso_sendResults st cid conn cor fin ps lb
  | terminate => exact errorIso_terminate st cid conn
  | unknown => intro c m hmem; simp [dispatch, HResult.noop] at hmem

/-- C3: whenever the message callback reports a recoverable protocol
error (`{type:"error", message}` — rate limiting, malformed JSON, and
every handler-level error), the error frame is the only frame sent, it
goes to the offending channel, and the room registry — every room's
players, scores, timers, `questionStartTime`, `currentQuestionIndex` —
is left exactly as it was. -/
theorem protocol_errors_isolated (now : Int) (fresh : Fresh) (st : OMap String Room)
    (cid : ChannelId) (conn : Conn) (raw : Option ClientMsg) (c : ChannelId) (m : String)
    (hmem : (c, OutMsg.error m) ∈ (onMessage now fresh st cid conn raw).sends) :
    (onMessage now fresh st cid conn raw).rooms = st ∧
    (onMessage now fresh st cid conn raw).sends = [(cid, OutMsg.error m)] := by
  unfold onMessage at hmem ⊢
  by_cases hrl : RATE_LIMIT_PER_SECOND < conn.msgCount + 1
  · simp only [if_pos hrl] at hmem ⊢
    simp_all
  · simp only [if_neg hrl] at hmem ⊢
    rcases raw with _ | msg
    · simp_all
    · exact errorIso_dispatch now fresh st cid _ msg c m hmem

theorem protocol_errors_isolated_witness :
    (onMessage 0 ⟨"BBBB", "sess-x"⟩ [] 3 {}
        (some (.join (some "XXXX") .undef (.str "Eve")))).rooms = [] ∧
    (onMessage 0 ⟨"BBBB", "sess-x"⟩ [] 3 {}
        (some (.join (some "XXXX") .undef (.str "Eve")))).sends
      = [(3, OutMsg.error "Raum nicht gefunden.")] :=
  protocol_errors_isolated 0 ⟨"BBBB", "sess-x"⟩ [] 3 {}
    (some (.join (some "XXXX") .undef (.str "Eve"))) 3 "Raum nicht gefunden."
    (List.mem_singleton.mpr rfl)

/-!
## C4 — the 240-player capacity invariant
-/

theorem OMap.mem_set {α β : Type} [DecidableEq α] (k : α) (v : β) (p : α × β) :
    ∀ m : OMap α β, p ∈ OMap.set m k v → p = (k, v) ∨ p ∈ m := by
  intro m
  induction m with
  | nil =>
      intro h
      simp only [OMap.set, List.mem_singleton] at h
      exact Or.inl h
  | cons hd tl ih =>
      intro h
      obtain ⟨k₀, v₀⟩ := hd
      by_cases hk : k₀ = k
      · rw [show OMap.set ((k₀, v₀) :: tl) k v = (k, v) :: tl from by
            simp [OMap.set, hk]] at h
        rcases List.mem_cons.mp h with h1 | h1
        · exact Or.inl h1
        · exact Or.inr (List.mem_cons_of_mem _ h1)
      · rw [show OMap.set ((k₀, v₀) :: tl) k v = (k₀, v₀) :: OMap.set tl k v from by
            simp [OMap.set, hk]] at h
        rcases List.mem_cons.mp h with h1 | h1
        · exact Or.inr (List.mem_cons.mpr (Or.inl h1))
        · rcases ih h1 with h2 | h2
          · exact Or.inl h2
          · exact Or.inr (List.mem_cons_of_mem _ h2)

theorem OMap.get_mem {α β : Type} [DecidableEq α] {m : OMap α β} {k : α} {v : β}
    (h : m.get k = some v) : (k, v) ∈ m := by
  induction m with
  | nil => simp [OMap.get] at h
  | cons hd tl ih =>
      obtain ⟨k₀, v₀⟩ := hd
      by_cases hk : k₀ = k
      · subst hk
        simp only [OMap.get, if_true, eq_self_iff_true, Option.some.injEq] at h
        subst h
        exact List.mem_cons_self _ _
      · simp only [OMap.get, if_neg hk] at h
        exact List.mem_cons_of_mem _ (ih h)

/-- Every room of the registry respects the player cap. -/
def RoomsBound (m : OMap String Room) : Prop :=
  ∀ p ∈ m, p.2.players.length ≤ MAX_PLAYERS_PER_ROOM

theorem RoomsBound.set {m : OMap String Room} {k : String} {v : Room}
    (hm : RoomsBound m) (hv : v.players.length ≤ MAX_PLAYERS_PER_ROOM) :
    RoomsBound (m.set k v) := by
  intro p hp
  rcases OMap.mem_set _ _ _ _ hp with h | h
  · rw [h]; exact hv
  · exact hm p h

theorem RoomsBound.del {m : OMap String Room} {k : String} (hm : RoomsBound m) :
    RoomsBound (m.del k) := fun p hp => hm p ((OMap.del_sublist m k).subset hp)

theorem dispatch_roomsBound (now : Int) (fresh : Fresh) (st : OMap String Room)
    (cid : ChannelId) (conn : Conn) (msg : ClientMsg) (hst : RoomsBound st) :
    RoomsBound (dispatch now fresh st cid conn msg).rooms := by
  cases msg with
  | createRoom =>
      show RoomsBound (handleCreateRoom now fresh st cid conn).rooms
      unfold handleCreateRoom
      split
      · exact hst
      · exact hst.set (by simp [MAX_PLAYERS_PER_ROOM])
  | reconnectHost r s =>
      show RoomsBound (handleReconnectHost st cid conn r s).rooms
      unfold handleReconnectHost
      rcases hroom : st.get (jsUpperOpt r) with _ | room <;> simp only [hroom]
      · split
        · exact hst
        · exact hst
      · split
        · exact hst
        · refine hst.set ?_
          have hb : room.players.length ≤ MAX_PLAYERS_PER_ROOM :=
            hst (jsUpperOpt r, room) (OMap.get_mem hroom)
          exact hb
  | restoreRoom r s ps =>
      show RoomsBound (handleRestoreRoom now fresh st cid conn r s ps).rooms
      unfold handleRestoreRoom
      split
      · exact hst
      · unfold restoreRoomBody
        split
        · exact hst
        · have hmk : ∀ roomId hostSessionId conn1,
              RoomsBound (mkRestoredRoom now roomId hostSessionId ps st cid conn1).rooms := by
            intro roomId hostSessionId conn1
            unfold mkRestoredRoom
            refine hst.set ?_
            rcases ps with _ | entries
            · simp [MAX_PLAYERS_PER_ROOM]
            · exact restorePlayers_length entries
          rcases hex : st.get (jsUpperOpt r) with _ | ex <;> simp only [hex]
          · exact hmk _ _ _
          · split
            · -- degenerates to reconnect_host
              unfold handleReconnectHost
              rcases hroom : st.get (jsUpperOpt r) with _ | room <;> simp only [hroom]
              · split
                · exact hst
                · exact hst
              · split
                · exact hst
                · refine hst.set ?_
                  have hb : room.players.length ≤ MAX_PLAYERS_PER_ROOM :=
                    hst (jsUpperOpt r, room) (OMap.get_mem hroom)
                  exact hb
            · exact hmk _ _ _
  | join rc sid pn =>
      show RoomsBound (handleJoin fresh st cid conn rc sid pn).rooms
      unfold handleJoin
      split
      · exact hst
      next room hroom =>
        split
        next sessionId player hsp =>
          refine hst.set ?_
          have hb : room.players.length ≤ MAX_PLAYERS_PER_ROOM :=
            hst (normalizeRoomCode rc, room) (OMap.get_mem hroom)
          have hmem : (room.players.get sessionId).isSome := by
            unfold joinSessionLookup at hsp
            rcases hsid : (match sid with
              | JSVal.str s => if strStartsWith s "sess-" then some s else none
              | _ => none) with _ | s₀
            · rw [hsid] at hsp; simp at hsp
            · rw [hsid, Option.some_bind' s₀] at hsp
              rcases hg : room.players.get s₀ with _ | p₀ <;>
                rw [hg] at hsp <;> simp at hsp
              rw [← hsp.1, hg]
              rfl
          show (room.players.set sessionId _).length ≤ MAX_PLAYERS_PER_ROOM
          rw [OMap.length_set, if_pos hmem]
          exact hb
        · split
          · exact hst
          next hfull =>
            refine hst.set ?_
            have hb : room.players.length ≤ MAX_PLAYERS_PER_ROOM :=
              hst (normalizeRoomCode rc, room) (OMap.get_mem hroom)
            have hlt : room.players.length < MAX_PLAYERS_PER_ROOM := by omega
            show (room.players.set fresh.sessionId _).length ≤ MAX_PLAYERS_PER_ROOM
            calc (room.players.set fresh.sessionId _).length
                ≤ room.players.length + 1 := OMap.length_set_le _ _ _
            _ ≤ MAX_PLAYERS_PER_ROOM := by omega
  | submitAnswer a e =>
      show RoomsBound (handleSubmitAnswer now st cid conn a).rooms
      unfold handleSubmitAnswer
      iterate 5 (all_goals try split)
      all_goals exact hst
  | startQuestion q o i t d =>
      show RoomsBound (handleStartQuestion now st cid conn q o i t d).rooms
      unfold handleStartQuestion
      rcases hrid : conn.roomId with _ | rid <;> simp only [hrid]
      · exact hst
      · rcases hroom : st.get rid with _ | room <;> simp only [hroom]
        · exact hst
        · iterate 6 (all_goals try split)
          all_goals try exact hst
          all_goals {
            refine hst.set ?_
            have hb : room.players.length ≤ MAX_PLAYERS_PER_ROOM :=
              hst (rid, room) (OMap.get_mem hroom)
            exact hb }
  | sendResults cor fin ps lb =>
      show RoomsBound (handleSendResults st cid conn cor fin ps lb).rooms
      unfold handleSendResults
      split
      · exact hst
      next room hroom =>
        split
        · exact hst
        · refine hst.set ?_
          have hkey : ∃ rid, st.get rid = some room := by
            rcases hrid : conn.roomId with _ | rid
            · rw [hrid] at hroom; simp [OMap.getOpt] at hroom
            · rw [hrid] at hroom
              exact ⟨rid, hroom⟩
          obtain ⟨rid, hkey⟩ := hkey
          have hb : room.players.length ≤ MAX_PLAYERS_PER_ROOM :=
            hst (rid, room) (OMap.get_mem hkey)
          rcases ps with _ | scores
          · exact hb
          · show (applyScores room.players scores).length ≤ MAX_PLAYERS_PER_ROOM
            rw [applyScores_length]
            exact hb
  | terminate =>
      show RoomsBound (handleTerminate st cid conn).rooms
      unfold handleTerminate
      iterate 3 (all_goals try split)
      all_goals first
        | exact hst
        | exact hst.del
  | unknown => exact hst

theorem handleDisconnect_roomsBound (st : OMap String Room) (conn : Conn)
    (hst : RoomsBound st) : RoomsBound (handleDisconnect st conn).1 := by
  unfold handleDisconnect
  rcases hrid : conn.roomId with _ | rid <;> simp only [hrid]
  · exact hst
  · rcases hroom : st.get rid with _ | room <;> simp only [hroom]
    · exact hst
    · split
      · refine hst.set ?_
        have hb : room.players.length ≤ MAX_PLAYERS_PER_ROOM :=
          hst (rid, room) (OMap.get_mem hroom)
        exact hb
      · split
        · split
          next player hplayer =>
            refine hst.set ?_
            have hb : room.players.length ≤ MAX_PLAYERS_PER_ROOM :=
              hst (rid, room) (OMap.get_mem hroom)
            have hmem : (room.players.get (conn.sessionId.getD "")).isSome := by
              rcases hcs : conn.sessionId with _ | s₀ <;> rw [hcs] at hplayer
              · simp at hplayer
              · simp only [Option.some_bind' s₀] at hplayer
                simp only [Option.getD]
                rw [hplayer]
                rfl
            show (room.players.set _ _).length ≤ MAX_PLAYERS_PER_ROOM
            rw [OMap.length_set, if_pos hmem]
            exact hb
          · exact hst
        · exact hst

theorem onMessage_roomsBound (now : Int) (fresh : Fresh) (st : OMap String Room)
    (cid : ChannelId) (conn : Conn) (raw : Option ClientMsg) (hst : RoomsBound st) :
    RoomsBound (onMessage now fresh st cid conn raw).rooms := by
  simp only [onMessage]
  split
  · exact hst
  · rcases raw with _ | msg
    · exact hst
    · exact dispatch_roomsBound now fresh st cid _ msg hst

theorem applyEvent_roomsBound (g : GState) (e : Event) (hg : RoomsBound g.rooms) :
    RoomsBound (applyEvent g e).1.rooms := by
  cases e with
  | connect cid => exact hg
  | message cid now fresh raw =>
      unfold applyEvent
      rcases hc : g.conns.get cid with _ | conn <;> simp only [hc]
      · exact hg
      · split
        · exact handleDisconnect_roomsBound _ _
            (onMessage_roomsBound now fresh g.rooms cid conn raw hg)
        · exact onMessage_roomsBound now fresh g.rooms cid conn raw hg
  | rateReset cid =>
      unfold applyEvent
      rcases hc : g.conns.get cid with _ | conn <;> simp only [hc] <;> exact hg
  | disconnect cid =>
      unfold applyEvent
      rcases hc : g.conns.get cid with _ | conn <;> simp only [hc]
      · exact hg
      · exact handleDisconnect_roomsBound _ _ hg
  | expiryFire rid =>
      unfold applyEvent
      rcases hr : g.rooms.get rid with _ | room <;> simp only [hr]
      · exact hg
      · split
        · exact hg.del
        · exact hg
  | hostTimeoutFire rid =>
      unfold applyEvent
      rcases hr : g.rooms.get rid with _ | room <;> simp only [hr]
      · exact hg
      · split
        · exact hg.del
        · exact hg

theorem reachable_roomsBound {g : GState} (h : Reachable g) : RoomsBound g.rooms := by
  induction h with
  | init => intro p hp; simp [initialState] at hp
  | step _ _ ih => exact applyEvent_roomsBound _ _ ih

/-- C4: in every reachable server state every room holds at most
`MAX_PLAYERS_PER_ROOM` (240) players; a join by a new player into a room
already at 240 is answered with the `RoomFull` error and adds no player;
a new joiner below the cap is admitted; and `restore_room` only ever
reads the snapshot truncated to 240 entries. -/
theorem players_capacity_invariant :
    (∀ g, Reachable g → ∀ p ∈ g.rooms, p.2.players.length ≤ MAX_PLAYERS_PER_ROOM) ∧
    (∀ (fresh : Fresh) (st : OMap String Room) (cid : ChannelId) (conn : Conn)
        (rc : Option String) (sid pn : JSVal) (room : Room),
        st.get (normalizeRoomCode rc) = some room →
        joinSessionLookup room sid = none →
        MAX_PLAYERS_PER_ROOM ≤ room.players.length →
        handleJoin fresh st cid conn rc sid pn
          = { rooms := st, conn := conn,
              sends := [(cid, .error "Raum ist voll (max. 240 Spieler).")] }) ∧
    (∀ (fresh : Fresh) (st : OMap String Room) (cid : ChannelId) (conn : Conn)
        (rc : Option String) (sid pn : JSVal) (room : Room),
        st.get (normalizeRoomCode rc) = some room →
        joinSessionLookup room sid = none →
        room.players.length < MAX_PLAYERS_PER_ROOM →
        ∃ room', (handleJoin fresh st cid conn rc sid pn).rooms
            = st.set (normalizeRoomCode rc) room' ∧
          room'.players = room.players.set fresh.sessionId
            { name := sanitizeName pn, score := 0, ws := some cid, isConnected := true }) ∧
    (∀ entries, restorePlayers entries
        = restorePlayers (entries.take MAX_PLAYERS_PER_ROOM)) := by
  refine ⟨?_, ?_, ?_, ?_⟩
  · intro g hg
    exact reachable_roomsBound hg
  · intro fresh st cid conn rc sid pn room hroom hlookup hfull
    unfold handleJoin
    simp only [hroom, hlookup]
    rw [if_pos hfull]
  · intro fresh st cid conn rc sid pn room hroom hlookup hlt
    unfold handleJoin
    simp only [hroom, hlookup]
    rw [if_neg (by omega)]
    exact ⟨_, rfl, rfl⟩
  · intro entries
    unfold restorePlayers
    rw [List.take_take, min_self]

/-- A room already holding 240 players. -/
def fullRoom : Room :=
  { hostWs := some 0, hostSessionId := "sess-h", createdAt := 0,
    players := (List.range MAX_PLAYERS_PER_ROOM).map
      (fun i => (toString i, { name := "P", score := 0, ws := none, isConnected := false })),
    expiryActive := true }

/-- The state after one channel attaches and creates a room. -/
def gC4 : GState :=
  (applyEvent (applyEvent initialState (.connect 0)).1
    (.message 0 0 ⟨"AAAA", "sess-h"⟩ (some .createRoom))).1

theorem players_capacity_invariant_witness :
    (("AAAA",
        ({ hostWs := some 0, hostSessionId := "sess-h", players := [], createdAt := 0,
           expiryActive := true } : Room)).2.players.length ≤ MAX_PLAYERS_PER_ROOM) ∧
    (handleJoin ⟨"BBBB", "sess-new"⟩ [("FULL", fullRoom)] 2 {} (some "FULL") .undef
        (.str "Eve")
      = { rooms := [("FULL", fullRoom)], conn := {},
          sends := [(2, .error "Raum ist voll (max. 240 Spieler).")] }) ∧
    (∃ room',
        (handleJoin ⟨"BBBB", "sess-new"⟩ [("AAAA", demoRoom)] 2 {} (some "AAAA") .undef
            (.str "Eve")).rooms
          = OMap.set [("AAAA", demoRoom)] "AAAA" room' ∧
        room'.players = demoRoom.players.set "sess-new"
          { name := sanitizeName (.str "Eve"), score := 0, ws := some 2,
            isConnected := true }) ∧
    (restorePlayers [] = restorePlayers (List.take MAX_PLAYERS_PER_ROOM [])) := by
  refine ⟨?_, ?_, ?_, ?_⟩
  · exact players_capacity_invariant.1 gC4
      (Reachable.step (@Reachable.step initialState (.connect 0) Reachable.init trivial) rfl)
      _ (List.mem_singleton.mpr rfl)
  · exact players_capacity_invariant.2.1 ⟨"BBBB", "sess-new"⟩ [("FULL", fullRoom)] 2 {}
      (some "FULL") .undef (.str "Eve") fullRoom rfl rfl
      (by simp [fullRoom])
  · exact players_capacity_invariant.2.2.1 ⟨"BBBB", "sess-new"⟩ [("AAAA", demoRoom)] 2 {}
      (some "AAAA") .undef (.str "Eve") demoRoom rfl rfl (by decide)
  · exact players_capacity_invariant.2.2.2 []

/-!
## C5 — session-id uniqueness across rooms
-/

/-- Every session id bound in a room: the host's and each player's. -/
def roomSessionIds (room : Room) : List String :=
  room.hostSessionId :: room.players.map Prod.fst

/-- Session-id uniqueness over a registry: ids of rooms under distinct
codes are disjoint, and no single room binds an id twice. -/
def UniqueSessionsM (m : OMap String Room) : Prop :=
  (∀ p₁ ∈ m, ∀ p₂ ∈ m, p₁.1 ≠ p₂.1 →
      ∀ s ∈ roomSessionIds p₁.2, s ∉ roomSessionIds p₂.2) ∧
  (∀ p ∈ m, (roomSessionIds p.2).Nodup)

def UniqueSessions (g : GState) : Prop := UniqueSessionsM g.rooms

theorem UniqueSessionsM.set_same {m : OMap String Room} {k : String} {room room' : Room}
    (hu : UniqueSessionsM m) (hk : m.get k = some room)
    (hids : roomSessionIds room' = roomSessionIds room) :
    UniqueSessionsM (m.set k room') := by
  constructor
  · intro p₁ hp₁ p₂ hp₂ hne s hs
    rcases OMap.mem_set _ _ _ _ hp₁ with h₁ | h₁ <;>
      rcases OMap.mem_set _ _ _ _ hp₂ with h₂ | h₂
    · rw [h₁, h₂] at hne; exact absurd rfl hne
    · subst h₁
      rw [show roomSessionIds (k, room').2 = roomSessionIds room from hids] at hs
      exact hu.1 (k, room) (OMap.get_mem hk) p₂ h₂ hne s hs
    · subst h₂
      rw [show roomSessionIds (k, room').2 = roomSessionIds room from hids]
      exact hu.1 p₁ h₁ (k, room) (OMap.get_mem hk) hne s hs
    · exact hu.1 p₁ h₁ p₂ h₂ hne s hs
  · intro p hp
    rcases OMap.mem_set _ _ _ _ hp with h | h
    · subst h
      rw [show roomSessionIds (k, room').2 = roomSessionIds room from hids]
      exact hu.2 (k, room) (OMap.get_mem hk)
    · exact hu.2 p h

theorem UniqueSessionsM.set_extend {m : OMap String Room} {k : String}
    {room room' : Room} {sid₀ : String}
    (hu : UniqueSessionsM m) (hk : m.get k = some room)
    (hfresh : ∀ p ∈ m, sid₀ ∉ roomSessionIds p.2)
    (hids : roomSessionIds room' = roomSessionIds room ++ [sid₀]) :
    UniqueSessionsM (m.set k room') := by
  constructor
  · intro p₁ hp₁ p₂ hp₂ hne s hs
    rcases OMap.mem_set _ _ _ _ hp₁ with h₁ | h₁ <;>
      rcases OMap.mem_set _ _ _ _ hp₂ with h₂ | h₂
    · rw [h₁, h₂] at hne; exact absurd rfl hne
    · subst h₁
      rw [show roomSessionIds (k, room').2 = roomSessionIds room ++ [sid₀] from hids] at hs
      rcases List.mem_append.mp hs with hs' | hs'
      · exact hu.1 (k, room) (OMap.get_mem hk) p₂ h₂ hne s hs'
      · rw [List.mem_singleton] at hs'
        subst hs'
        exact hfresh p₂ h₂
    · subst h₂
      intro hc
      rw [show roomSessionIds (k, room').2 = roomSessionIds room ++ [sid₀] from hids] at hc
      rcases List.mem_append.mp hc with hc' | hc'
      · exact hu.1 p₁ h₁ (k, room) (OMap.get_mem hk) hne s hs hc'
      · rw [List.mem_singleton] at hc'
        subst hc'
        exact hfresh p₁ h₁ hs
    · exact hu.1 p₁ h₁ p₂ h₂ hne s hs
  · intro p hp
    rcases OMap.mem_set _ _ _ _ hp with h | h
    · subst h
      rw [show roomSessionIds (k, room').2 = roomSessionIds room ++ [sid₀] from hids]
      refine List.Nodup.append (hu.2 (k, room) (OMap.get_mem hk))
        (List.nodup_singleton _) ?_
      intro x hx hx'
      rw [List.mem_singleton] at hx'
      subst hx'
      exact hfresh (k, room) (OMap.get_mem hk) hx
    · exact hu.2 p h

theorem UniqueSessionsM.set_fresh {m : OMap String Room} {k : String} {room' : Room}
    (hu : UniqueSessionsM m)
    (hdisj : ∀ s ∈ roomSessionIds room', ∀ p ∈ m, s ∉ roomSessionIds p.2)
    (hnd : (roomSessionIds room').Nodup) :
    UniqueSessionsM (m.set k room') := by
  constructor
  · intro p₁ hp₁ p₂ hp₂ hne s hs
    rcases OMap.mem_set _ _ _ _ hp₁ with h₁ | h₁ <;>
      rcases OMap.mem_set _ _ _ _ hp₂ with h₂ | h₂
    · rw [h₁, h₂] at hne; exact absurd rfl hne
    · subst h₁
      exact hdisj s hs p₂ h₂
    · subst h₂
      intro hc
      exact hdisj s hc p₁ h₁ hs
    · exact hu.1 p₁ h₁ p₂ h₂ hne s hs
  · intro p hp
    rcases OMap.mem_set _ _ _ _ hp with h | h
    · subst h
      exact hnd
    · exact hu.2 p h

theorem UniqueSessionsM.del_room {m : OMap String Room} {k : String} (hu : UniqueSessionsM m) :
    UniqueSessionsM (m.del k) := by
  constructor
  · intro p₁ hp₁ p₂ hp₂
    exact hu.1 p₁ ((OMap.del_sublist m k).subset hp₁) p₂ ((OMap.del_sublist m k).subset hp₂)
  · intro p hp
    exact hu.2 p ((OMap.del_sublist m k).subset hp)

/-- A successful `joinSessionLookup` really found the player under that
session id. -/
theorem joinSessionLookup_get {room : Room} {sid : JSVal} {sessionId : String}
    {player : Player} (hsp : joinSessionLookup room sid = some (sessionId, player)) :
    room.players.get sessionId = some player := by
  unfold joinSessionLookup at hsp
  rcases hsid : (match sid with
    | JSVal.str s => if strStartsWith s "sess-" then some s else none
    | _ => none) with _ | s₀ <;> rw [hsid] at hsp
  · simp at hsp
  · rw [Option.some_bind' s₀] at hsp
    rcases hg : room.players.get s₀ with _ | p₀ <;> rw [hg] at hsp <;> simp at hsp
    rw [← hsp.1, ← hsp.2, hg]

theorem dispatch_uniqueSessions (now : Int) (fresh : Fresh) (st : OMap String Room)
    (cid : ChannelId) (conn : Conn) (msg : ClientMsg)
    (hu : UniqueSessionsM st)
    (hnr : ∀ r s ps, msg ≠ .restoreRoom r s ps)
    (hfreshSid : ∀ p ∈ st, fresh.sessionId ∉ roomSessionIds p.2) :
    UniqueSessionsM (dispatch now fresh st cid conn msg).rooms := by
  cases msg with
  | createRoom =>
      show UniqueSessionsM (handleCreateRoom now fresh st cid conn).rooms
      unfold handleCreateRoom
      split
      · exact hu
      · refine hu.set_fresh ?_ ?_
        · intro s hs p hp
          simp only [roomSessionIds, List.map_nil, List.mem_singleton] at hs
          subst hs
          exact hfreshSid p hp
        · simp [roomSessionIds]
  | reconnectHost r s =>
      show UniqueSessionsM (handleReconnectHost st cid conn r s).rooms
      unfold handleReconnectHost
      rcases hroom : st.get (jsUpperOpt r) with _ | room <;> simp only [hroom]
      · split <;> exact hu
      · split
        · exact hu
        · exact hu.set_same hroom rfl
  | restoreRoom r s ps => exact absurd rfl (hnr r s ps)
  | join rc sid pn =>
      show UniqueSessionsM (handleJoin fresh st cid conn rc sid pn).rooms
      unfold handleJoin
      rcases hroom : st.get (normalizeRoomCode rc) with _ | room <;> simp only [hroom]
      · exact hu
      · split
        next sessionId player hsp =>
          refine hu.set_same hroom ?_
          show roomSessionIds _ = roomSessionIds room
          simp only [roomSessionIds]
          congr 1
          exact OMap.keys_set_of_mem _ _ _
            (by rw [joinSessionLookup_get hsp]; rfl)
        · split
          · exact hu
          · refine hu.set_extend hroom hfreshSid ?_
            show roomSessionIds _ = roomSessionIds room ++ [fresh.sessionId]
            have hnone : room.players.get fresh.sessionId = none := by
              apply OMap.get_eq_none_of_not_mem
              intro hmem
              exact hfreshSid (normalizeRoomCode rc, room) (OMap.get_mem hroom)
                (List.mem_cons_of_mem _ hmem)
            simp only [roomSessionIds]
            rw [OMap.keys_set_of_new _ _ _ hnone]
            rfl
  | submitAnswer a e =>
      show UniqueSessionsM (handleSubmitAnswer now st cid conn a).rooms
      unfold handleSubmitAnswer
      iterate 5 (all_goals try split)
      all_goals exact hu
  | startQuestion q o i t d =>
      show UniqueSessionsM (handleStartQuestion now st cid conn q o i t d).rooms
      unfold handleStartQuestion
      rcases hrid : conn.roomId with _ | rid <;> simp only [hrid]
      · exact hu
      · rcases hroom : st.get rid with _ | room <;> simp only [hroom]
        · exact hu
        · iterate 6 (all_goals try split)
          all_goals try exact hu
          all_goals exact hu.set_same hroom rfl
  | sendResults cor fin ps lb =>
      show UniqueSessionsM (handleSendResults st cid conn cor fin ps lb).rooms
      unfold handleSendResults
      rcases hrid : conn.roomId with _ | rid <;> simp only [hrid, OMap.getOpt]
      · exact hu
      · rcases hroom : st.get rid with _ | room <;> simp only [hroom]
        · exact hu
        · split
          · exact hu
          · refine hu.set_same hroom ?_
            show roomSessionIds _ = roomSessionIds room
            rcases ps with _ | scores
            · rfl
            · simp only [roomSessionIds]
              rw [applyScores_keys]
  | terminate =>
      show UniqueSessionsM (handleTerminate st cid conn).rooms
      unfold handleTerminate
      iterate 3 (all_goals try split)
      all_goals first
        | exact hu
        | exact hu.del_room
  | unknown => exact hu

theorem handleDisconnect_uniqueSessions (st : OMap String Room) (conn : Conn)
    (hu : UniqueSessionsM st) : UniqueSessionsM (handleDisconnect st conn).1 := by
  unfold handleDisconnect
  rcases hrid : conn.roomId with _ | rid <;> simp only [hrid]
  · exact hu
  · rcases hroom : st.get rid with _ | room <;> simp only [hroom]
    · exact hu
    · split
      · exact hu.set_same hroom rfl
      · split
        · split
          next player hplayer =>
            refine hu.set_same hroom ?_
            show roomSessionIds _ = roomSessionIds room
            simp only [roomSessionIds]
            congr 1
            refine OMap.keys_set_of_mem _ _ _ ?_
            rcases hcs : conn.sessionId with _ | s₀ <;> rw [hcs] at hplayer
            · simp at hplayer
            · rw [Option.some_bind' s₀] at hplayer
              simp only [Option.getD]
              rw [hplayer]
              rfl
          · exact hu
        · exact hu

theorem onMessage_uniqueSessions (now : Int) (fresh : Fresh) (st : OMap String Room)
    (cid : ChannelId) (conn : Conn) (raw : Option ClientMsg)
    (hu : UniqueSessionsM st)
    (hnr : ∀ r s ps, raw ≠ some (.restoreRoom r s ps))
    (hfreshSid : ∀ p ∈ st, fresh.sessionId ∉ roomSessionIds p.2) :
    UniqueSessionsM (onMessage now fresh st cid conn raw).rooms := by
  simp only [onMessage]
  split
  · exact hu
  · rcases raw with _ | msg
    · exact hu
    · exact dispatch_uniqueSessions now fresh st cid _ msg hu
        (fun r s ps h => hnr r s ps (by rw [h])) hfreshSid

/-- An event that is not an inbound `restore_room` frame. -/
def NotRestore : Event → Prop
  | .message _ _ _ (some (.restoreRoom _ _ _)) => False
  | _ => True

/-- C5 (amended): session-id uniqueness — no id bound in two rooms and no
id bound twice in one room — is preserved by every event except a
`restore_room` frame, provided the ids minted by `generateSessionId` are
fresh (the UUID assumption).  `restore_room` itself installs
client-supplied ids without any cross-room check and can break the
invariant (see the counterexample). -/
theorem session_uniqueness_except_restore (g : GState) (e : Event)
    (hu : UniqueSessions g) (hnr : NotRestore e)
    (hfresh : ∀ cid now fresh raw, e = .message cid now fresh raw →
        ∀ p ∈ g.rooms, fresh.sessionId ∉ roomSessionIds p.2) :
    UniqueSessions (applyEvent g e).1 := by
  cases e with
  | connect cid => exact hu
  | message cid now fresh raw =>
      show UniqueSessionsM (applyEvent g (.message cid now fresh raw)).1.rooms
      unfold applyEvent
      rcases hc : g.conns.get cid with _ | conn <;> simp only [hc]
      · exact hu
      · have hnr' : ∀ r s ps, raw ≠ some (.restoreRoom r s ps) := by
          intro r s ps h
          rw [h] at hnr
          exact hnr
        have hfr := hfresh cid now fresh raw rfl
        split
        · exact handleDisconnect_uniqueSessions _ _
            (onMessage_uniqueSessions now fresh g.rooms cid conn raw hu hnr' hfr)
        · exact onMessage_uniqueSessions now fresh g.rooms cid conn raw hu hnr' hfr
  | rateReset cid =>
      show UniqueSessionsM (applyEvent g (.rateReset cid)).1.rooms
      unfold applyEvent
      rcases hc : g.conns.get cid with _ | conn <;> simp only [hc] <;> exact hu
  | disconnect cid =>
      show UniqueSessionsM (applyEvent g (.disconnect cid)).1.rooms
      unfold applyEvent
      rcases hc : g.conns.get cid with _ | conn <;> simp only [hc]
      · exact hu
      · exact handleDisconnect_uniqueSessions _ _ hu
  | expiryFire rid =>
      show UniqueSessionsM (applyEvent g (.expiryFire rid)).1.rooms
      unfold applyEvent
      rcases hr : g.rooms.get rid with _ | room <;> simp only [hr]
      · exact hu
      · split
        · exact hu.del_room
        · exact hu
  | hostTimeoutFire rid =>
      show UniqueSessionsM (applyEvent g (.hostTimeoutFire rid)).1.rooms
      unfold applyEvent
      rcases hr : g.rooms.get rid with _ | room <;> simp only [hr]
      · exact hu
      · split
        · exact hu.del_room
        · exact hu

/-- Two different hosts restore snapshots that both contain a player
`sess-p`; `restore_room` installs the client-supplied ids unchecked. -/
def snapDup : List SnapEntry :=
  [{ id := .str "sess-p", name := .str "Bob", score := .num (.val 5) }]

def eBad3 : Event :=
  .message 0 1000 ⟨"ZZZZ", "sess-z1"⟩
    (some (.restoreRoom (some "AAAA") (some "sess-h1") (some snapDup)))

def eBad4 : Event :=
  .message 1 1000 ⟨"YYYY", "sess-z2"⟩
    (some (.restoreRoom (some "BBBB") (some "sess-h2") (some snapDup)))

def gBad1 : GState := (applyEvent initialState (.connect 0)).1

def gBad2 : GState := (applyEvent gBad1 (.connect 1)).1

def gBad3 : GState := (applyEvent gBad2 eBad3).1

def gBad : GState := (applyEvent gBad3 eBad4).1

/-- C5 as stated is false on the code: `gBad` is reachable, yet the
session id `sess-p` is simultaneously a player key of rooms `AAAA` and
`BBBB` (and nothing stops the same for host ids either). -/
theorem session_uniqueness_counterexample :
    Reachable gBad ∧ ¬ UniqueSessions gBad := by
  constructor
  · exact @Reachable.step gBad3 eBad4
      (@Reachable.step gBad2 eBad3
        (@Reachable.step gBad1 (.connect 1)
          (@Reachable.step initialState (.connect 0) Reachable.init trivial)
          trivial)
        rfl)
      rfl
  · unfold UniqueSessions UniqueSessionsM
    decide

theorem session_uniqueness_except_restore_witness :
    UniqueSessions (applyEvent gC4
      (.message 0 5 ⟨"CCCC", "sess-q"⟩
        (some (.join (some "AAAA") .undef (.str "Eve"))))).1 := by
  apply session_uniqueness_except_restore
  · unfold UniqueSessions UniqueSessionsM
    decide
  · trivial
  · intro cid now fresh raw h
    injection h with h1 h2 h3 h4
    subst h3
    decide

/-!
## C6 — rate limiting: fixed windows, not a rolling window
-/

/-- Dispatched arrivals whose time lies in the fixed window `w`
(times `t` with `t / 1000 = w`), along a run from state `s`. -/
def fixedDispatched (s : RState) (ts : List Nat) (w : Nat) : Nat :=
  ((ts.zip (runRate s ts)).filter
    (fun p => decide (p.1 / 1000 = w) && decide (p.2 = RateOutcome.dispatched))).length

theorem fixedDispatched_nil (s : RState) (w : Nat) : fixedDispatched s [] w = 0 := rfl

theorem fixedDispatched_cons (s : RState) (t : Nat) (rest : List Nat) (w : Nat) :
    fixedDispatched s (t :: rest) w =
      (if t / 1000 = w ∧ (rateStep s t).2 = RateOutcome.dispatched then 1 else 0)
        + fixedDispatched (rateStep s t).1 rest w := by
  simp only [fixedDispatched, runRate, List.zip_cons_cons, List.filter_cons]
  by_cases h1 : t / 1000 = w <;>
    by_cases h2 : (rateStep s t).2 = RateOutcome.dispatched <;>
      simp [h1, h2] <;> omega

theorem fixedDispatched_zero (w : Nat) : ∀ (ts : List Nat) (s : RState),
    (∀ t ∈ ts, w < t / 1000) → fixedDispatched s ts w = 0 := by
  intro ts
  induction ts with
  | nil => intro s _; rfl
  | cons t rest ih =>
      intro s hwin
      rw [fixedDispatched_cons]
      have h1 : ¬ (t / 1000 = w) := by
        have := hwin t (List.mem_cons_self _ _)
        omega
      rw [if_neg (fun hc => h1 hc.1),
        ih _ (fun t' ht' => hwin t' (List.mem_cons_of_mem _ ht'))]

theorem fixedDispatched_le (w : Nat) : ∀ (ts : List Nat) (s : RState),
    List.Sorted (· ≤ ·) ts →
    (∀ t ∈ ts, s.window ≤ t / 1000) →
    fixedDispatched s ts w ≤
      (if w = s.window then RATE_LIMIT_PER_SECOND - s.count
       else RATE_LIMIT_PER_SECOND) := by
  intro ts
  induction ts with
  | nil =>
      intro s _ _
      rw [fixedDispatched_nil]
      split <;> omega
  | cons t rest ih =>
      intro s hsort hwin
      have hsort' : List.Sorted (· ≤ ·) rest := hsort.of_cons
      have hle : ∀ t' ∈ rest, t ≤ t' := (List.sorted_cons.mp hsort).1
      have hwin' : ∀ t' ∈ rest, t / 1000 ≤ t' / 1000 :=
        fun t' ht' => Nat.div_le_div_right (hle t' ht')
      have hwint : s.window ≤ t / 1000 := hwin t (List.mem_cons_self _ _)
      rw [fixedDispatched_cons]
      by_cases hcl : s.closed
      · have h2 : (rateStep s t).2 = RateOutcome.dropped := by
          unfold rateStep; rw [if_pos hcl]
        have h1 : (rateStep s t).1 = s := by
          unfold rateStep; rw [if_pos hcl]
        rw [if_neg (fun hc => by rw [h2] at hc; exact absurd hc.2 (by simp)), h1]
        have hih := ih s hsort' (fun t' ht' => hwin t' (List.mem_cons_of_mem _ ht'))
        by_cases hw : w = s.window
        · rw [if_pos hw] at hih ⊢; omega
        · rw [if_neg hw] at hih ⊢; omega
      · by_cases hrl : RATE_LIMIT_PER_SECOND < rateCount s t
        · -- this arrival is answered with the error frame
          have h2 : (rateStep s t).2 = RateOutcome.errored := by
            unfold rateStep; rw [if_neg hcl, if_pos hrl]
          have hw1 : (rateStep s t).1.window = t / 1000 := by
            unfold rateStep; rw [if_neg hcl, if_pos hrl]
          have hc1 : (rateStep s t).1.count = rateCount s t := by
            unfold rateStep; rw [if_neg hcl, if_pos hrl]
          rw [if_neg (fun hc => by rw [h2] at hc; exact absurd hc.2 (by simp))]
          have hih := ih (rateStep s t).1 hsort'
            (fun t' ht' => by rw [hw1]; exact hwin' t' ht')
          rw [hw1, hc1] at hih
          by_cases hw : w = t / 1000
          · rw [if_pos hw] at hih
            by_cases hws : w = s.window
            · rw [if_pos hws]
              have hcount : rateCount s t = s.count + 1 := by
                unfold rateCount
                rw [if_pos (by omega : t / 1000 = s.window)]
              omega
            · rw [if_neg hws]
              omega
          · rw [if_neg hw] at hih
            by_cases hws : w = s.window
            · have hlt : s.window < t / 1000 := by omega
              have hzero := fixedDispatched_zero w rest (rateStep s t).1
                (fun t' ht' => by have := hwin' t' ht'; omega)
              rw [if_pos hws, hzero]
              omega
            · rw [if_neg hws]
              omega
        · -- this arrival is dispatched
          have h2 : (rateStep s t).2 = RateOutcome.dispatched := by
            unfold rateStep; rw [if_neg hcl, if_neg hrl]
          have hw1 : (rateStep s t).1.window = t / 1000 := by
            unfold rateStep; rw [if_neg hcl, if_neg hrl]
          have hc1 : (rateStep s t).1.count = rateCount s t := by
            unfold rateStep; rw [if_neg hcl, if_neg hrl]
          have hih := ih (rateStep s t).1 hsort'
            (fun t' ht' => by rw [hw1]; exact hwin' t' ht')
          rw [hw1, hc1] at hih
          by_cases hw : w = t / 1000
          · rw [if_pos (And.intro hw.symm h2)]
            rw [if_pos hw] at hih
            by_cases hws : w = s.window
            · rw [if_pos hws]
              have hcount : rateCount s t = s.count + 1 := by
                unfold rateCount
                rw [if_pos (by omega : t / 1000 = s.window)]
              omega
            · rw [if_neg hws]
              have hcount : rateCount s t = 1 := by
                unfold rateCount
                rw [if_neg (by omega : ¬ t / 1000 = s.window)]
              omega
          · rw [if_neg (fun hc => hw hc.1.symm)]
            rw [if_neg hw] at hih
            by_cases hws : w = s.window
            · have hlt : s.window < t / 1000 := by omega
              have hzero := fixedDispatched_zero w rest (rateStep s t).1
                (fun t' ht' => by have := hwin' t' ht'; omega)
              rw [if_pos hws, hzero]
              omega
            · rw [if_neg hws]
              omega

/-- Twenty messages at t = 900 ms followed by twenty-one at t = 1100 ms:
the interval reset at t = 1000 clears the counter in between. -/
def ctrace : List Nat := List.replicate 20 900 ++ List.replicate 21 1100

/-- C6 as stated is false on the code: `_msgCount` is cleared by a fixed
1-second `setInterval` timer, not maintained over a rolling window, so a
channel can get 40 messages dispatched within a single rolling 1-second
span (here `[900, 1900)`). -/
theorem rate_limit_rolling_counterexample :
    ¬ (∀ ts : List Nat, List.Sorted (· ≤ ·) ts →
        ∀ t₀, dispatchedIn ts t₀ (t₀ + 1000) ≤ RATE_LIMIT_PER_SECOND) := by
  intro h
  have hb := h ctrace (by decide) 900
  have hval : dispatchedIn ctrace 900 (900 + 1000) = 40 := by decide
  rw [hval] at hb
  exact absurd hb (by decide)

/-- C6 (amended): the limiter counts per fixed 1-second window (counter
reset each second from channel attach).  Per fixed window at most
`RATE_LIMIT_PER_SECOND` (20) arrivals are dispatched; while the channel
is open an arrival is dispatched iff its within-window count is ≤ 20,
answered with an error frame iff the count exceeds 20, and the channel
is closed iff the count exceeds 60 (3× the limit); a closed channel
processes nothing; and in the message callback a rate-limited message
yields exactly the error frame and reaches no handler. -/
theorem rate_limit_fixed_window :
    (∀ ts : List Nat, List.Sorted (· ≤ ·) ts →
        ∀ w, fixedDispatched {} ts w ≤ RATE_LIMIT_PER_SECOND) ∧
    (∀ (s : RState) (t : Nat), s.closed = false →
        ((rateStep s t).2 = RateOutcome.dispatched ↔
          rateCount s t ≤ RATE_LIMIT_PER_SECOND) ∧
        ((rateStep s t).2 = RateOutcome.errored ↔
          RATE_LIMIT_PER_SECOND < rateCount s t) ∧
        ((rateStep s t).1.closed = true ↔
          RATE_LIMIT_PER_SECOND * 3 < rateCount s t)) ∧
    (∀ (s : RState) (t : Nat), s.closed = true → rateStep s t = (s, .dropped)) ∧
    (∀ now fresh st cid conn raw, RATE_LIMIT_PER_SECOND < conn.msgCount + 1 →
        onMessage now fresh st cid conn raw
          = { rooms := st, conn := { conn with msgCount := conn.msgCount + 1 },
              sends := [(cid, .error "Zu viele Nachrichten. Bitte warte einen Moment.")],
              closed := decide (RATE_LIMIT_PER_SECOND * 3 < conn.msgCount + 1) }) := by
  refine ⟨?_, ?_, ?_, ?_⟩
  · intro ts hsort w
    have h := fixedDispatched_le w ts {} hsort (fun t _ => Nat.zero_le _)
    by_cases hw : w = RState.window {}
    · rw [if_pos hw] at h
      omega
    · rw [if_neg hw] at h
      omega
  · intro s t hcl
    unfold rateStep
    rw [if_neg (by simp [hcl])]
    by_cases hrl : RATE_LIMIT_PER_SECOND < rateCount s t
    · rw [if_pos hrl]
      exact ⟨⟨fun h => by simp at h, fun h => absurd hrl (by omega)⟩,
             ⟨fun _ => hrl, fun _ => rfl⟩,
             ⟨fun h => of_decide_eq_true h, fun h => decide_eq_true h⟩⟩
    · rw [if_neg hrl]
      exact ⟨⟨fun _ => by omega, fun _ => rfl⟩,
             ⟨fun h => by simp at h, fun h => absurd h hrl⟩,
             ⟨fun h => by simp at h, fun h => absurd h (by omega)⟩⟩
  · intro s t hcl
    unfold rateStep
    rw [if_pos hcl]
  · intro now fresh st cid conn raw hlt
    simp only [onMessage]
    rw [if_pos hlt]

theorem rate_limit_fixed_window_witness :
    (fixedDispatched {} ctrace 0 ≤ RATE_LIMIT_PER_SECOND) ∧
    (((rateStep {} 500).2 = RateOutcome.dispatched ↔
        rateCount {} 500 ≤ RATE_LIMIT_PER_SECOND) ∧
      ((rateStep {} 500).2 = RateOutcome.errored ↔
        RATE_LIMIT_PER_SECOND < rateCount {} 500) ∧
      ((rateStep {} 500).1.closed = true ↔
        RATE_LIMIT_PER_SECOND * 3 < rateCount {} 500)) ∧
    (rateStep ⟨1, 5, true⟩ 1200 = (⟨1, 5, true⟩, .dropped)) ∧
    (onMessage 0 ⟨"BBBB", "sess-x"⟩ [] 3 { msgCount := 20 } (some .createRoom)
      = { rooms := [], conn := { msgCount := 21 },
          sends := [(3, .error "Zu viele Nachrichten. Bitte warte einen Moment.")],
          closed := false }) := by
  refine ⟨?_, ?_, ?_, ?_⟩
  · exact rate_limit_fixed_window.1 ctrace (by decide) 0
  · exact rate_limit_fixed_window.2.1 {} 500 rfl
  · exact rate_limit_fixed_window.2.2.1 ⟨1, 5, true⟩ 1200 rfl
  · exact rate_limit_fixed_window.2.2.2 0 ⟨"BBBB", "sess-x"⟩ [] 3 { msgCount := 20 }
      (some .createRoom) (by decide)

/-!
## C7 — restore_room populates only sanitized snapshot players
-/

theorem restoreFold_get (l : List SnapEntry) :
    ∀ (acc : OMap String Player) (s : String) (pl : Player),
    (l.foldl (fun acc e =>
      match e.id with
      | .str s =>
          if strStartsWith s "sess-" && e.name.truthy then acc.set s (restoredPlayer e)
          else acc
      | _ => acc) acc).get s = some pl →
    (∃ e ∈ l, e.id = .str s ∧ pl = restoredPlayer e) ∨ acc.get s = some pl := by
  induction l with
  | nil =>
      intro acc s pl h
      exact Or.inr h
  | cons hd tl ih =>
      intro acc s pl h
      rw [List.foldl_cons] at h
      rcases hid : hd.id with _ | _ | _ | _ | sid | _ <;> rw [hid] at h
      case str =>
        dsimp only at h
        by_cases hc : strStartsWith sid "sess-" && hd.name.truthy
        · rw [if_pos hc] at h
          rcases ih _ s pl h with h' | h'
          · obtain ⟨e, he, heid, hepl⟩ := h'
            exact Or.inl ⟨e, List.mem_cons_of_mem _ he, heid, hepl⟩
          · rw [OMap.get_set] at h'
            by_cases hss : sid = s
            · subst hss
              rw [if_pos rfl] at h'
              injection h' with h''
              exact Or.inl ⟨hd, List.mem_cons_self _ _, hid, h''.symm⟩
            · rw [if_neg hss] at h'
              exact Or.inr h'
        · rw [if_neg hc] at h
          rcases ih _ s pl h with h' | h'
          · obtain ⟨e, he, heid, hepl⟩ := h'
            exact Or.inl ⟨e, List.mem_cons_of_mem _ he, heid, hepl⟩
          · exact Or.inr h'
      all_goals {
        rcases ih _ s pl h with h' | h'
        · obtain ⟨e, he, heid, hepl⟩ := h'
          exact Or.inl ⟨e, List.mem_cons_of_mem _ he, heid, hepl⟩
        · exact Or.inr h' }

theorem restorePlayers_get {entries : List SnapEntry} {s : String} {pl : Player}
    (h : (restorePlayers entries).get s = some pl) :
    ∃ e ∈ entries.take MAX_PLAYERS_PER_ROOM, e.id = .str s ∧ pl = restoredPlayer e := by
  unfold restorePlayers at h
  rcases restoreFold_get (entries.take MAX_PLAYERS_PER_ROOM) [] s pl h with h' | h'
  · exact h'
  · simp [OMap.get] at h'

/-- C7: an accepted `restore_room` creating a new room under the
supplied code populates its players only from the snapshot truncated to
240 entries — every restored player is disconnected and carries the
sanitized snapshot name and the snapshot score when that score is a
finite non-negative number (0 otherwise) — and the `host_reconnected`
response with `isRestored` lists exactly the server-stored players. -/
theorem restore_room_sanitized (now : Int) (fresh : Fresh) (st : OMap String Room)
    (cid : ChannelId) (conn : Conn) (r s : Option String) (ps : List SnapEntry)
    (hrl : (match conn.lastRestore with
        | some t => decide (now - t < 5000)
        | none => false) = false)
    (hr : jsUpperOpt r ≠ "") (hs : s.getD "" ≠ "")
    (hnew : st.get (jsUpperOpt r) = none) :
    ∃ room,
      (handleRestoreRoom now fresh st cid conn r s (some ps)).rooms
          = st.set (jsUpperOpt r) room ∧
      room.hostSessionId = s.getD "" ∧
      room.players = restorePlayers ps ∧
      (∀ sid pl, room.players.get sid = some pl →
        pl.isConnected = false ∧ pl.ws = none ∧
        ∃ e ∈ ps.take MAX_PLAYERS_PER_ROOM, e.id = .str sid ∧
          pl.name = sanitizeName e.name ∧
          pl.score = (match e.score with
            | .num (.val q) => if 0 ≤ q then q else 0
            | _ => 0) ∧
          (∀ q : ℚ, e.score = .num (.val q) → 0 ≤ q → pl.score = q)) ∧
      (handleRestoreRoom now fresh st cid conn r s (some ps)).sends
          = [(cid, .hostReconnected (jsUpperOpt r) (playerInfoList room) true)] := by
  unfold handleRestoreRoom
  rw [if_neg (by rw [hrl]; simp)]
  unfold restoreRoomBody
  rw [if_neg (fun hc => hc.elim hr hs)]
  simp only [hnew]
  unfold mkRestoredRoom
  refine ⟨_, rfl, rfl, rfl, ?_, rfl⟩
  intro sid pl h
  have h' : (restorePlayers ps).get sid = some pl := h
  obtain ⟨e, hmem, heid, hpl⟩ := restorePlayers_get h'
  refine ⟨by rw [hpl]; rfl, by rw [hpl]; rfl, e, hmem, heid, by rw [hpl]; rfl,
    by rw [hpl]; rfl, ?_⟩
  intro q heq hq
  rw [hpl]
  show (restoredPlayer e).score = q
  unfold restoredPlayer
  rw [heq]
  dsimp only
  rw [if_pos hq]

theorem restore_room_sanitized_witness :
    ∃ room,
      (handleRestoreRoom 0 ⟨"QQQQ", "sess-m"⟩ [] 9 {} (some "CAFE") (some "sess-h9")
          (some [{ id := .str "sess-p1", name := .str "<b>Eve</b>", score := .num (.val 7) },
                 { id := .num (.val 3), name := .str "bad", score := .undef }])).rooms
          = OMap.set [] (jsUpperOpt (some "CAFE")) room ∧
      room.hostSessionId = (some "sess-h9").getD "" ∧
      room.players = restorePlayers
          [{ id := .str "sess-p1", name := .str "<b>Eve</b>", score := .num (.val 7) },
           { id := .num (.val 3), name := .str "bad", score := .undef }] ∧
      (∀ sid pl, room.players.get sid = some pl →
        pl.isConnected = false ∧ pl.ws = none ∧
        ∃ e ∈ ([{ id := .str "sess-p1", name := .str "<b>Eve</b>", score := .num (.val 7) },
                { id := .num (.val 3), name := .str "bad",
                  score := .undef }] : List SnapEntry).take MAX_PLAYERS_PER_ROOM,
          e.id = .str sid ∧
          pl.name = sanitizeName e.name ∧
          pl.score = (match e.score with
            | .num (.val q) => if 0 ≤ q then q else 0
            | _ => 0) ∧
          (∀ q : ℚ, e.score = .num (.val q) → 0 ≤ q → pl.score = q)) ∧
      (handleRestoreRoom 0 ⟨"QQQQ", "sess-m"⟩ [] 9 {} (some "CAFE") (some "sess-h9")
          (some [{ id := .str "sess-p1", name := .str "<b>Eve</b>", score := .num (.val 7) },
                 { id := .num (.val 3), name := .str "bad", score := .undef }])).sends
          = [(9, .hostReconnected (jsUpperOpt (some "CAFE")) (playerInfoList room) true)] :=
  restore_room_sanitized 0 ⟨"QQQQ", "sess-m"⟩ [] 9 {} (some "CAFE") (some "sess-h9")
    [{ id := .str "sess-p1", name := .str "<b>Eve</b>", score := .num (.val 7) },
     { id := .num (.val 3), name := .str "bad", score := .undef }]
    rfl (by decide) (by decide) rfl

/-!
## C8 — submit_answer validation and forwarding
-/

/-- The events leading to `gC8`: a host creates a room, a player joins,
and then the host channel drops (grace period — the room survives with
`hostWs` detached). -/
def gC8 : GState :=
  (applyEvent (applyEvent (applyEvent (applyEvent (applyEvent initialState
      (.connect 0)).1
    (.message 0 0 ⟨"AAAA", "sess-host1"⟩ (some .createRoom))).1
    (.connect 1)).1
    (.message 1 10 ⟨"QQQQ", "sess-bob1"⟩
      (some (.join (some "AAAA") .undef (.str "Bob"))))).1
    (.disconnect 0)).1

/-- C8 as stated is false on the code: in the reachable state `gC8` the
channel 1 is bound to a known player of the existing room `AAAA`, yet a
`submit_answer` with a valid length-20 `answerData` array produces no
frame at all — the host channel is detached (grace period), so nothing
is forwarded. -/
theorem submit_forwarding_counterexample :
    Reachable gC8 ∧
    (∃ room, gC8.rooms.get "AAAA" = some room ∧
      (room.players.get "sess-bob1").isSome ∧ room.hostWs = none) ∧
    (∃ conn, gC8.conns.get 1 = some conn ∧
      conn.roomId = some "AAAA" ∧ conn.sessionId = some "sess-bob1") ∧
    (applyEvent gC8 (.message 1 50 ⟨"RRRR", "sess-x"⟩
        (some (.submitAnswer (.arr (List.replicate 20 (.num (.val 1)))) [])))).2
      = [] := by
  refine ⟨?_, ⟨_, rfl, rfl, rfl⟩, ⟨_, rfl, rfl, rfl⟩, by decide⟩
  exact Reachable.step (Reachable.step (Reachable.step (Reachable.step
    (@Reachable.step initialState (.connect 0) Reachable.init trivial) rfl) trivial) rfl)
    trivial

/-- C8 (amended): for a `submit_answer` from a channel bound to a known
player of an existing room, a non-array or over-long (>20) `answerData`
is silently dropped — no frame, no state change; an array of length at
most 20 is forwarded to the host in a `player_answered` frame provided
the room's host channel is currently attached (a detached host — grace
period — receives nothing). -/
theorem submit_answer_validation (now : Int) (st : OMap String Room) (cid : ChannelId)
    (conn : Conn) (a : JSVal) (rid : String) (room : Room) (player : Player)
    (hrid : conn.roomId = some rid) (hroom : st.get rid = some room)
    (hplayer : conn.sessionId.bind room.players.get = some player) :
    ((∀ xs, a ≠ .arr xs) →
        handleSubmitAnswer now st cid conn a = HResult.noop st conn) ∧
    (∀ xs, a = .arr xs → 20 < xs.length →
        handleSubmitAnswer now st cid conn a = HResult.noop st conn) ∧
    (∀ xs h, a = .arr xs → xs.length ≤ 20 → room.hostWs = some h →
        handleSubmitAnswer now st cid conn a
          = { rooms := st, conn := conn,
              sends := [(h, .playerAnswered (conn.sessionId.getD "") player.name xs
                            now (elapsedOf room now))] }) := by
  have hred : ∀ out, handleSubmitAnswer now st cid conn a = out ↔
      (match a with
        | .arr xs =>
            if 20 < xs.length then HResult.noop st conn
            else
              match room.hostWs with
              | some h =>
                  { rooms := st, conn := conn,
                    sends := [(h, .playerAnswered (conn.sessionId.getD "") player.name xs
                                  now (elapsedOf room now))] }
              | none => HResult.noop st conn
        | _ => HResult.noop st conn) = out := by
    intro out
    unfold handleSubmitAnswer
    rw [show st.getOpt conn.roomId = some room by rw [hrid]; exact hroom]
    dsimp only
    rw [hplayer]
  refine ⟨?_, ?_, ?_⟩
  · intro hne
    rw [hred]
    rcases a with _ | _ | b | n | s | xs
    · rfl
    · rfl
    · rfl
    · rfl
    · rfl
    · exact absurd rfl (hne xs)
  · intro xs ha hlen
    subst ha
    rw [hred]
    dsimp only
    rw [if_pos hlen]
  · intro xs h ha hlen hws
    subst ha
    rw [hred]
    dsimp only
    rw [if_neg (by omega), hws]

theorem submit_answer_validation_witness :
    handleSubmitAnswer 7 [("AAAA", demoRoom)] 1 demoPlayerConn (.str "x")
      = HResult.noop [("AAAA", demoRoom)] demoPlayerConn ∧
    handleSubmitAnswer 7 [("AAAA", demoRoom)] 1 demoPlayerConn
        (.arr (List.replicate 21 .nullv))
      = HResult.noop [("AAAA", demoRoom)] demoPlayerConn ∧
    handleSubmitAnswer 7 [("AAAA", demoRoom)] 1 demoPlayerConn
        (.arr (List.replicate 20 .nullv))
      = { rooms := [("AAAA", demoRoom)], conn := demoPlayerConn,
          sends := [(0, .playerAnswered (demoPlayerConn.sessionId.getD "")
              ({ name := "Bob", score := 3, ws := some 1,
                 isConnected := true } : Player).name (List.replicate 20 .nullv) 7
              (elapsedOf demoRoom 7))] } :=
  ⟨(submit_answer_validation 7 [("AAAA", demoRoom)] 1 demoPlayerConn (.str "x")
      "AAAA" demoRoom { name := "Bob", score := 3, ws := some 1, isConnected := true }
      rfl rfl rfl).1 (fun xs h => by cases h),
   (submit_answer_validation 7 [("AAAA", demoRoom)] 1 demoPlayerConn
      (.arr (List.replicate 21 .nullv)) "AAAA" demoRoom
      { name := "Bob", score := 3, ws := some 1, isConnected := true }
      rfl rfl rfl).2.1 _ rfl (by decide),
   (submit_answer_validation 7 [("AAAA", demoRoom)] 1 demoPlayerConn
      (.arr (List.replicate 20 .nullv)) "AAAA" demoRoom
      { name := "Bob", score := 3, ws := some 1, isConnected := true }
      rfl rfl rfl).2.2 _ 0 rfl (by decide) rfl⟩

/-!
## C9 — the one-room flag is never cleared
-/

/-- `(m.del k).get k'` for a different key is unaffected, with no
key-uniqueness assumption. -/
theorem OMap.get_del_ne {α β : Type} [DecidableEq α] (m : OMap α β) (k k' : α)
    (h : k ≠ k') : (m.del k).get k' = m.get k' := by
  induction m with
  | nil => rfl
  | cons hd tl ih =>
      by_cases hk : hd.1 = k
      · simp only [OMap.del, if_pos hk, OMap.get]
        rw [if_neg (fun hq => h (hk.symm.trans hq))]
      · simp only [OMap.del, if_neg hk, OMap.get]
        split
        · rfl
        · exact ih

/-- The connection map never holds two entries for one channel id. -/
def ConnsNodup (g : GState) : Prop := (g.conns.map Prod.fst).Nodup

theorem applyEvent_connsNodup (g : GState) (e : Event) (h : ConnsNodup g) :
    ConnsNodup (applyEvent g e).1 := by
  cases e with
  | connect cid => exact OMap.nodup_keys_set _ _ _ h
  | message cid now fresh raw =>
      simp only [ConnsNodup, applyEvent]
      rcases hg : g.conns.get cid with _ | conn <;> simp only [hg]
      · exact h
      · split
        · exact OMap.nodup_keys_del _ _ h
        · exact OMap.nodup_keys_set _ _ _ h
  | rateReset cid =>
      simp only [ConnsNodup, applyEvent]
      rcases hg : g.conns.get cid with _ | conn <;> simp only [hg]
      · exact h
      · exact OMap.nodup_keys_set _ _ _ h
  | disconnect cid =>
      simp only [ConnsNodup, applyEvent]
      rcases hg : g.conns.get cid with _ | conn <;> simp only [hg]
      · exact h
      · exact OMap.nodup_keys_del _ _ h
  | expiryFire rid =>
      simp only [ConnsNodup, applyEvent]
      rcases hg : g.rooms.get rid with _ | room <;> simp only [hg]
      · exact h
      · split
        · exact h
        · exact h
  | hostTimeoutFire rid =>
      simp only [ConnsNodup, applyEvent]
      rcases hg : g.rooms.get rid with _ | room <;> simp only [hg]
      · exact h
      · split
        · exact h
        · exact h

theorem reachable_connsNodup (g : GState) (h : Reachable g) : ConnsNodup g := by
  induction h with
  | init => exact List.nodup_nil
  | step hr hok ih => exact applyEvent_connsNodup _ _ ih

/-- No handler ever clears the `_hasRoom` flag of its connection. -/
theorem dispatch_hasRoom (now : Int) (fresh : Fresh) (st : OMap String Room)
    (cid : ChannelId) (conn : Conn) (m : ClientMsg) (h : conn.hasRoom = true) :
    (dispatch now fresh st cid conn m).conn.hasRoom = true := by
  cases m with
  | createRoom =>
      show (handleCreateRoom now fresh st cid conn).conn.hasRoom = true
      unfold handleCreateRoom
      split
      next => exact h
      next hh => exact absurd h hh
  | reconnectHost r s =>
      show (handleReconnectHost st cid conn r s).conn.hasRoom = true
      unfold handleReconnectHost
      rcases hroom : st.get (jsUpperOpt r) with _ | room <;> simp only [hroom] <;>
        split <;> exact h
  | restoreRoom r s ps =>
      show (handleRestoreRoom now fresh st cid conn r s ps).conn.hasRoom = true
      unfold handleRestoreRoom
      split
      · exact h
      · unfold restoreRoomBody
        split
        · exact h
        · rcases hex : st.get (jsUpperOpt r) with _ | ex <;> simp only [hex]
          · exact h
          · split
            · unfold handleReconnectHost
              rcases hroom : st.get (jsUpperOpt r) with _ | room <;> simp only [hroom] <;>
                split <;> exact h
            · exact h
  | join rc sid pn =>
      show (handleJoin fresh st cid conn rc sid pn).conn.hasRoom = true
      unfold handleJoin
      split
      · exact h
      · split
        · exact h
        · split <;> exact h
  | submitAnswer a ex =>
      show (handleSubmitAnswer now st cid conn a).conn.hasRoom = true
      unfold handleSubmitAnswer
      iterate 5 (all_goals try split)
      all_goals exact h
  | startQuestion q o i t d =>
      show (handleStartQuestion now st cid conn q o i t d).conn.hasRoom = true
      unfold handleStartQuestion
      iterate 8 (all_goals try split)
      all_goals exact h
  | sendResults c f ps lb =>
      show (handleSendResults st cid conn c f ps lb).conn.hasRoom = true
      unfold handleSendResults
      iterate 3 (all_goals try split)
      all_goals exact h
  | terminate =>
      show (handleTerminate st cid conn).conn.hasRoom = true
      unfold handleTerminate
      iterate 3 (all_goals try split)
      all_goals exact h
  | unknown => exact h

theorem onMessage_hasRoom (now : Int) (fresh : Fresh) (st : OMap String Room)
    (cid : ChannelId) (conn : Conn) (raw : Option ClientMsg) (h : conn.hasRoom = true) :
    (onMessage now fresh st cid conn raw).conn.hasRoom = true := by
  simp only [onMessage]
  split
  · exact h
  · rcases raw with _ | m
    · exact h
    · exact dispatch_hasRoom now fresh st cid { conn with msgCount := conn.msgCount + 1 } m h

/-- C9: the per-channel one-room flag set by `create_room` is sticky and
decisive.  In any reachable state, a channel whose connection carries the
flag keeps it across every event that does not attach a fresh channel
under its id, for as long as the channel is in the connection map; with
the flag set, `create_room` is always rejected with the already-hosting
error and changes nothing — whatever the room registry holds, in
particular after the channel's own room has been removed by terminate,
expiry, or the host-disconnect timeout; and a successful `create_room`
leaves the flag set. -/
theorem hasRoom_never_cleared (g : GState) (e : Event) (cid : ChannelId) (conn : Conn)
    (hre : Reachable g) (hconn : g.conns.get cid = some conn)
    (hhas : conn.hasRoom = true) :
    ((∀ c, e = Event.connect c → c ≠ cid) →
      ∀ conn', (applyEvent g e).1.conns.get cid = some conn' →
        conn'.hasRoom = true) ∧
    (∀ now fresh st,
      handleCreateRoom now fresh st cid conn
        = { rooms := st, conn := conn,
            sends := [(cid, .error "Du hast bereits einen Raum erstellt.")] }) ∧
    (∀ now fresh st cid2 (conn2 : Conn),
      (handleCreateRoom now fresh st cid2 conn2).conn.hasRoom = true) := by
  have hnd : (g.conns.map Prod.fst).Nodup := reachable_connsNodup g hre
  refine ⟨?_, ?_, ?_⟩
  · intro hne conn' h'
    cases e with
    | connect c =>
        have hc : ¬ c = cid := hne c rfl
        simp only [applyEvent] at h'
        rw [OMap.get_set, if_neg hc, hconn] at h'
        injection h' with h2
        subst h2
        exact hhas
    | message c n f raw =>
        simp only [applyEvent] at h'
        rcases hg : g.conns.get c with _ | c0 <;> simp only [hg] at h'
        · rw [hconn] at h'
          injection h' with h2
          subst h2
          exact hhas
        · split at h'
          · rw [OMap.get_del g.conns c cid hnd] at h'
            split at h'
            · simp at h'
            · rw [hconn] at h'
              injection h' with h2
              subst h2
              exact hhas
          · rw [OMap.get_set] at h'
            split at h'
            next hceq =>
              subst hceq
              rw [hconn] at hg
              injection hg with h3
              subst h3
              injection h' with h2
              subst h2
              exact onMessage_hasRoom n f g.rooms c conn raw hhas
            · rw [hconn] at h'
              injection h' with h2
              subst h2
              exact hhas
    | rateReset c =>
        simp only [applyEvent] at h'
        rcases hg : g.conns.get c with _ | c0 <;> simp only [hg] at h'
        · rw [hconn] at h'
          injection h' with h2
          subst h2
          exact hhas
        · rw [OMap.get_set] at h'
          split at h'
          next hceq =>
            subst hceq
            rw [hconn] at hg
            injection hg with h3
            subst h3
            injection h' with h2
            subst h2
            exact hhas
          · rw [hconn] at h'
            injection h' with h2
            subst h2
            exact hhas
    | disconnect c =>
        simp only [applyEvent] at h'
        rcases hg : g.conns.get c with _ | c0 <;> simp only [hg] at h'
        · rw [hconn] at h'
          injection h' with h2
          subst h2
          exact hhas
        · rw [OMap.get_del g.conns c cid hnd] at h'
          split at h'
          · simp at h'
          · rw [hconn] at h'
            injection h' with h2
            subst h2
            exact hhas
    | expiryFire rid =>
        simp only [applyEvent] at h'
        rcases hg : g.rooms.get rid with _ | room <;> simp only [hg] at h'
        · rw [hconn] at h'
          injection h' with h2
          subst h2
          exact hhas
        · split at h' <;>
            { try dsimp only at h'
              rw [hconn] at h'
              injection h' with h2
              subst h2
              exact hhas }
    | hostTimeoutFire rid =>
        simp only [applyEvent] at h'
        rcases hg : g.rooms.get rid with _ | room <;> simp only [hg] at h'
        · rw [hconn] at h'
          injection h' with h2
          subst h2
          exact hhas
        · split at h' <;>
            { try dsimp only at h'
              rw [hconn] at h'
              injection h' with h2
              subst h2
              exact hhas }
  · intro now2 fresh2 st2
    unfold handleCreateRoom
    rw [if_pos hhas]
  · intro now2 fresh2 st2 cid2 conn2
    unfold handleCreateRoom
    split
    next hh => exact hh
    · rfl

theorem hasRoom_never_cleared_witness :
    (∀ conn', (applyEvent gC4 (.connect 1)).1.conns.get 0 = some conn' →
        conn'.hasRoom = true) ∧
    (handleCreateRoom 9 ⟨"ZZZZ", "sess-z"⟩ [] 0
        { roomId := some "AAAA", sessionId := some "sess-h", role := some .host,
          hasRoom := true, msgCount := 1 }
      = { rooms := [],
          conn := { roomId := some "AAAA", sessionId := some "sess-h",
                    role := some .host, hasRoom := true, msgCount := 1 },
          sends := [(0, .error "Du hast bereits einen Raum erstellt.")] }) := by
  have h := hasRoom_never_cleared gC4 (.connect 1) 0
      { roomId := some "AAAA", sessionId := some "sess-h", role := some .host,
        hasRoom := true, msgCount := 1 }
      (Reachable.step (@Reachable.step initialState (.connect 0) Reachable.init trivial) rfl)
      rfl rfl
  exact ⟨h.1 (fun c hc => by cases hc; decide), h.2.1 9 ⟨"ZZZZ", "sess-z"⟩ []⟩

/-!
## C10 — join with a stored session id reconnects without touching name or score
-/

/-- C10: a join carrying a sessionId of the mint format (`sess-` prefix)
that maps to an existing player of the room rebinds that player's record
to the joining channel with `isConnected = true` while leaving its name
and score unchanged: the `joined` response echoes the stored name and
score with the reconnect marker, the host (when attached) gets a
`player_reconnected` frame with the same stored name and score, and the
`playerName` field supplied in the message has no effect on the result
whatsoever. -/
theorem join_reconnect_preserves (fresh : Fresh) (st : OMap String Room)
    (cid : ChannelId) (conn : Conn) (rc : Option String) (sid : String) (pn : JSVal)
    (room : Room) (player : Player)
    (hroom : st.get (normalizeRoomCode rc) = some room)
    (hsid : strStartsWith sid "sess-" = true)
    (hplayer : room.players.get sid = some player) :
    (∀ pn', handleJoin fresh st cid conn rc (.str sid) pn
        = handleJoin fresh st cid conn rc (.str sid) pn') ∧
    handleJoin fresh st cid conn rc (.str sid) pn
      = { rooms := st.set (normalizeRoomCode rc)
            { room with
                players := room.players.set sid
                              { player with ws := some cid, isConnected := true } },
          conn := { conn with
                      sessionId := some sid,
                      roomId := some (normalizeRoomCode rc), role := some .player },
          sends := (cid, .joined sid player.score player.name true) ::
            (match room.hostWs with
              | some h => [(h, .playerReconnected sid player.name player.score
                  (getConnectedPlayerCount
                    { room with
                        players := room.players.set sid
                                      { player with ws := some cid,
                                                    isConnected := true } }))]
              | none => []) } := by
  have hlk : joinSessionLookup room (.str sid) = some (sid, player) := by
    unfold joinSessionLookup
    dsimp only
    rw [if_pos hsid, Option.some_bind' sid, hplayer]
    rfl
  have key : ∀ pn'' : JSVal, handleJoin fresh st cid conn rc (.str sid) pn''
      = { rooms := st.set (normalizeRoomCode rc)
            { room with
                players := room.players.set sid
                              { player with ws := some cid, isConnected := true } },
          conn := { conn with
                      sessionId := some sid,
                      roomId := some (normalizeRoomCode rc), role := some .player },
          sends := (cid, .joined sid player.score player.name true) ::
            (match room.hostWs with
              | some h => [(h, .playerReconnected sid player.name player.score
                  (getConnectedPlayerCount
                    { room with
                        players := room.players.set sid
                                      { player with ws := some cid,
                                                    isConnected := true } }))]
              | none => []) } := by
    intro pn''
    unfold handleJoin
    rw [hroom]
    dsimp only
    rw [hlk]
  exact ⟨fun pn' => (key pn).trans (key pn').symm, key pn⟩

theorem join_reconnect_preserves_witness :
    (∀ pn', handleJoin ⟨"BBBB", "sess-new"⟩ [("AAAA", demoRoom)] 2 {} (some "AAAA")
        (.str "sess-bob") (.str "Mallory")
      = handleJoin ⟨"BBBB", "sess-new"⟩ [("AAAA", demoRoom)] 2 {} (some "AAAA")
        (.str "sess-bob") pn') ∧
    handleJoin ⟨"BBBB", "sess-new"⟩ [("AAAA", demoRoom)] 2 {} (some "AAAA")
        (.str "sess-bob") (.str "Mallory")
      = { rooms := [("AAAA",
            { hostWs := some 0, hostSessionId := "sess-host", createdAt := 0,
              players := [("sess-bob",
                { name := "Bob", score := 3, ws := some 2, isConnected := true })],
              expiryActive := true })],
          conn := { roomId := some "AAAA", sessionId := some "sess-bob",
                    role := some .player },
          sends := [(2, .joined "sess-bob" 3 "Bob" true),
                    (0, .playerReconnected "sess-bob" "Bob" 3 1)] } :=
  join_reconnect_preserves ⟨"BBBB", "sess-new"⟩ [("AAAA", demoRoom)] 2 {} (some "AAAA")
    "sess-bob" (.str "Mallory") demoRoom
    { name := "Bob", score := 3, ws := some 1, isConnected := true }
    (by decide) (by decide) rfl
